import Mathlib

/-!
Verification of the gnss-ntrip-client repository core: the RTCM 3.x frame
parser (`src/src/RtcmParser.cpp`) and the NTRIP session engine
(`NtripClient.cpp`).  C++ machine integers are embedded as `Nat` with
explicit reductions (`% 2^32` for `uint32_t`, `% 65536` for `uint16_t`,
`% 256` for `uint8_t`) at the points where the C code can overflow or
truncate.
-/

set_option maxHeartbeats 1000000
set_option maxRecDepth 4000

/-! ## CRC24Q — embedding of `RtcmParser::crc24q` -/

/-- CRC24Q polynomial constant from `RtcmParser.cpp`. -/
def CRC24Q_POLY : Nat := 0x1864CFB

/-- One iteration of the `for` loop inside `RtcmParser::crc24q`:
`crc = (crc & 0x800000) ? (crc << 1) ^ CRC24Q_POLY : (crc << 1)` on a
`uint32_t`. -/
def crc24qRound (c : Nat) : Nat :=
  if c &&& 0x800000 ≠ 0 then ((c <<< 1) % 2 ^ 32) ^^^ CRC24Q_POLY else (c <<< 1) % 2 ^ 32

/-- Embedding of `RtcmParser::crc24q`: xor the byte into bits 16..23, run the
round eight times, mask to 24 bits. -/
def crc24q (crc b : Nat) : Nat :=
  (crc24qRound^[8] ((crc % 2 ^ 32) ^^^ ((b % 256) <<< 16))) &&& 0xFFFFFF

/-- CRC of a byte sequence, seed 0 (as used over preamble+length+payload). -/
def crcRun (bs : List Nat) : Nat := bs.foldl crc24q 0

/-! ## RTCM parser — embedding of `RtcmParser` -/

/-- The five-way parser stage (`enum State` in `RtcmParser.h`). -/
inductive RtcmStage
  | SYNC
  | LEN1
  | LEN2
  | PAYLOAD
  | CRC
deriving DecidableEq, Repr

/-- Result structure returned by `RtcmParser::feed` (`struct RtcmResult`). -/
structure RtcmResult where
  valid : Bool
  crcError : Bool
  messageType : Nat
  length : Nat
deriving DecidableEq, Repr

/-- Default-constructed `RtcmResult` (C++ member initializers). -/
def RtcmResult.init : RtcmResult := ⟨false, false, 0, 0⟩

/-- Parser state: stage, 10-bit running length, index, accumulated CRC, the
3-byte CRC buffer and the 12-byte payload prefix buffer. -/
structure RtcmParser where
  state : RtcmStage
  length : Nat
  index : Nat
  crc : Nat
  crcBuf : Fin 3 → Fin 256
  payloadBuf : Fin 12 → Fin 256

/-- A byte value as an element of `Fin 256` (a `uint8_t` store). -/
def byteFin (b : Nat) : Fin 256 := ⟨b % 256, Nat.mod_lt _ (by norm_num)⟩

/-- Record of a single array store performed by `feed`: which buffer and at
which (pre-increment) index the C code writes. -/
inductive BufWrite
  | payload (i : Nat)
  | crcb (i : Nat)
deriving DecidableEq, Repr

/-- Embedding of `RtcmParser::extractMessageType`. -/
def RtcmParser.extractMessageType (p : RtcmParser) : Nat :=
  if 2 ≤ p.length then
    ((((p.payloadBuf 0).val <<< 4) ||| (((p.payloadBuf 1).val >>> 4) &&& 0x0F)) % 65536)
  else 0

/-- Embedding of `RtcmParser::reset`. -/
def RtcmParser.resetP (p : RtcmParser) : RtcmParser :=
  { p with state := .SYNC, length := 0, index := 0, crc := 0 }

/-- Embedding of `RtcmParser::feed`.  Returns the updated parser, the
`RtcmResult`, and the trace of array stores the C code performs on this byte
(used to state the memory-safety claim).  Stores into `payloadBuf` are
guarded by `index < sizeof(payloadBuf)` in the source; stores into `crcBuf`
are unguarded, so the model records them always and drops the store itself
when out of range. -/
def RtcmParser.feed (p : RtcmParser) (b0 : Nat) : RtcmParser × RtcmResult × List BufWrite :=
  let b := b0 % 256
  match p.state with
  | .SYNC =>
      if b = 0xD3 then
        ({ p with crc := crc24q 0 b, state := .LEN1 }, .init, [])
      else (p, .init, [])
  | .LEN1 =>
      ({ p with length := ((b &&& 0x03) <<< 8) % 65536,
                crc := crc24q p.crc b, state := .LEN2 }, .init, [])
  | .LEN2 =>
      ({ p with length := (p.length ||| b) % 65536,
                crc := crc24q p.crc b, index := 0, state := .PAYLOAD }, .init, [])
  | .PAYLOAD =>
      let pb := if h : p.index < 12 then
                  Function.update p.payloadBuf ⟨p.index, h⟩ (byteFin b)
                else p.payloadBuf
      let ws := if p.index < 12 then [BufWrite.payload p.index] else []
      let c := crc24q p.crc b
      let idx := (p.index + 1) % 65536
      if p.length ≤ idx then
        ({ p with payloadBuf := pb, crc := c, state := .CRC, index := 0 }, .init, ws)
      else
        ({ p with payloadBuf := pb, crc := c, index := idx }, .init, ws)
  | .CRC =>
      let cb := if h : p.index < 3 then
                  Function.update p.crcBuf ⟨p.index, h⟩ (byteFin b)
                else p.crcBuf
      let idx := (p.index + 1) % 65536
      if 3 ≤ idx then
        let recv := ((cb 0).val <<< 16) ||| ((cb 1).val <<< 8) ||| (cb 2).val
        let ok := p.crc == recv
        let res : RtcmResult :=
          { valid := ok, crcError := !ok,
            messageType := if ok then RtcmParser.extractMessageType { p with crcBuf := cb } else 0,
            length := p.length }
        ({ p with crcBuf := cb, state := .SYNC, length := 0, index := 0, crc := 0 },
          res, [BufWrite.crcb p.index])
      else
        ({ p with crcBuf := cb, index := idx }, .init, [BufWrite.crcb p.index])

/-- Feed a whole byte list, collecting the per-byte results and the store
trace. -/
def RtcmParser.run (p : RtcmParser) : List Nat → RtcmParser × List RtcmResult × List BufWrite
  | [] => (p, [], [])
  | b :: bs =>
      let s1 := p.feed b
      let s2 := s1.1.run bs
      (s2.1, s1.2.1 :: s2.2.1, s1.2.2 ++ s2.2.2)

/-- A concrete freshly-constructed parser (`RtcmParser parser;` with the
member initializers; the C buffers are uninitialized, modelled as zero). -/
def RtcmParser.mk0 : RtcmParser := ⟨.SYNC, 0, 0, 0, fun _ => 0, fun _ => 0⟩

/-! ## Frame construction (for stating the wire-format claims) -/

/-- The three CRC bytes of a 24-bit value, big-endian. -/
def crcBytes3 (v : Nat) : List Nat := [v >>> 16, (v >>> 8) &&& 0xFF, v &&& 0xFF]

/-- A well-formed RTCM 3.x frame: preamble `0xD3`, two length bytes (the six
reserved bits are `r % 64`), the payload, and the big-endian CRC24Q of
preamble+length+payload. -/
def mkFrame (r : Nat) (payload : List Nat) : List Nat :=
  let L := payload.length
  let l1 := (r % 64) * 4 + (L >>> 8)
  let l2 := L &&& 0xFF
  let hdr := [0xD3, l1, l2]
  hdr ++ payload ++ crcBytes3 (crcRun (hdr ++ payload))

/-- Message type carried by a payload: top 12 bits of its first two bytes. -/
def msgTypeOf (payload : List Nat) : Nat :=
  match payload with
  | b0 :: b1 :: _ => (((b0 % 256) <<< 4) ||| (((b1 % 256) >>> 4) &&& 0x0F)) % 65536
  | _ => 0

/-! ## C10 — buffer stores stay in bounds -/

/-- A recorded store is within the bounds of its array. -/
def BufWrite.inBounds : BufWrite → Bool
  | .payload i => decide (i < 12)
  | .crcb i => decide (i < 3)

/-- Index invariant of the parser: while collecting the CRC the running
index is below 3. -/
def IdxInv (p : RtcmParser) : Prop := p.state = .CRC → p.index < 3

theorem feed_writes_inBounds (p : RtcmParser) (b : Nat) (hp : IdxInv p) :
    ((p.feed b).2.2.all BufWrite.inBounds) = true ∧ IdxInv (p.feed b).1 := by
  rcases p with ⟨st, len, idx, c, cb, pb⟩
  cases st
  case SYNC =>
    refine ⟨?_, ?_⟩ <;> simp only [RtcmParser.feed] <;> split <;>
      simp [IdxInv, BufWrite.inBounds]
  case LEN1 =>
    exact ⟨by simp [RtcmParser.feed], by intro h; simp [RtcmParser.feed] at h⟩
  case LEN2 =>
    exact ⟨by simp [RtcmParser.feed], by intro h; simp [RtcmParser.feed] at h⟩
  case PAYLOAD =>
    refine ⟨?_, ?_⟩ <;> simp only [RtcmParser.feed] <;> split
    · split <;> rename_i h12 <;> simp [BufWrite.inBounds, h12]
    · split <;> rename_i h12 <;> simp [BufWrite.inBounds, h12]
    · intro h; simp
    · intro h; simp at h
  case CRC =>
    have hidx : idx < 3 := hp rfl
    refine ⟨?_, ?_⟩ <;> simp only [RtcmParser.feed] <;> split <;> rename_i h3
    · simp [BufWrite.inBounds, hidx]
    · simp [BufWrite.inBounds, hidx]
    · intro _; simp
    · intro _; simp; omega

theorem run_writes_inBounds (bs : List Nat) :
    ∀ p : RtcmParser, IdxInv p →
      ((p.run bs).2.2.all BufWrite.inBounds) = true ∧ IdxInv (p.run bs).1 := by
  induction bs with
  | nil => intro p hp; simpa [RtcmParser.run] using hp
  | cons b bs ih =>
      intro p hp
      obtain ⟨h1, h2⟩ := feed_writes_inBounds p b hp
      obtain ⟨h3, h4⟩ := ih (p.feed b).1 h2
      refine ⟨?_, ?_⟩
      · simp [RtcmParser.run, List.all_append, h1, h3]
      · simpa [RtcmParser.run] using h4

/-- C10: for every input byte sequence fed from the reset state, every store
into the 12-byte payload prefix buffer uses an index below 12 and every
store into the 3-byte CRC buffer uses an index below 3. -/
theorem rtcm_feed_no_oob_writes (p0 : RtcmParser) (bs : List Nat) :
    ((p0.resetP.run bs).2.2.all BufWrite.inBounds) = true := by
  have hinv : IdxInv p0.resetP := by intro h; simp [RtcmParser.resetP] at h
  exact (run_writes_inBounds bs p0.resetP hinv).1

/-! ## C6 — CRC24Q is the polynomial-division remainder over GF(2)

The spec definition: a byte sequence is read as a polynomial over GF(2)
(MSB first), multiplied by `x^24`, and reduced modulo the generator
polynomial `0x1864CFB` (which includes the `x^24` term).  We prove the
iterated `crc24q` computes exactly that remainder. -/

open Polynomial in
/-- The GF(2) polynomial whose `x^i` coefficient is bit `i` of `n`. -/
noncomputable def toPoly (n : Nat) : Polynomial (ZMod 2) :=
  ∑ i ∈ Finset.range n.size, if n.testBit i then (X : Polynomial (ZMod 2)) ^ i else 0

/-- The generator polynomial of CRC-24Q, all 25 bits of `0x1864CFB`. -/
noncomputable def Gpoly : Polynomial (ZMod 2) := toPoly CRC24Q_POLY

/-- A byte list read as a big number, MSB first (the message polynomial). -/
def msgNat (bs : List Nat) : Nat := bs.foldl (fun a b => a * 256 + b) 0

theorem toPoly_coeff (n i : Nat) :
    (toPoly n).coeff i = if n.testBit i then 1 else 0 := by
  unfold toPoly
  rw [Polynomial.finset_sum_coeff]
  have h1 : ∀ b ∈ Finset.range n.size,
      (if n.testBit b then (Polynomial.X : Polynomial (ZMod 2)) ^ b else 0).coeff i
        = if b = i then (if n.testBit i then 1 else 0) else 0 := by
    intro b _
    by_cases hb : n.testBit b
    · by_cases hbi : b = i
      · subst hbi; simp [hb, Polynomial.coeff_X_pow]
      · have hib : i ≠ b := fun h => hbi h.symm
        simp [hb, hbi, hib, Polynomial.coeff_X_pow]
    · by_cases hbi : b = i
      · subst hbi; simp [hb]
      · simp [hb, hbi]
  rw [Finset.sum_congr rfl h1, Finset.sum_ite_eq' (Finset.range n.size) i _]
  by_cases hi : i ∈ Finset.range n.size
  · simp [hi]
  · have hsz : n.size ≤ i := by simpa using hi
    have hbit : n.testBit i = false := by
      apply Nat.testBit_lt_two_pow
      calc n < 2 ^ n.size := Nat.lt_size_self n
        _ ≤ 2 ^ i := Nat.pow_le_pow_right (by norm_num) hsz
    simp [hi, hbit]

theorem toPoly_zero : toPoly 0 = 0 := by
  apply Polynomial.ext
  intro i
  simp [toPoly_coeff]

theorem toPoly_one : toPoly 1 = 1 := by
  apply Polynomial.ext
  intro i
  rw [toPoly_coeff, Polynomial.coeff_one]
  cases i with
  | zero => simp
  | succ j =>
      have h3 : (2 : Nat) ^ 1 ≤ 2 ^ (j + 1) := Nat.pow_le_pow_right (by norm_num) (by omega)
      have hb : (1 : Nat).testBit (j + 1) = false := by
        apply Nat.testBit_lt_two_pow
        simp at h3
        omega
      simp [hb]

theorem toPoly_xor (a b : Nat) : toPoly (a ^^^ b) = toPoly a + toPoly b := by
  apply Polynomial.ext
  intro i
  rw [Polynomial.coeff_add, toPoly_coeff, toPoly_coeff, toPoly_coeff, Nat.testBit_xor]
  cases ha : a.testBit i <;> cases hb : b.testBit i <;> simp <;> decide

theorem toPoly_shiftLeft (n k : Nat) :
    toPoly (n <<< k) = toPoly n * Polynomial.X ^ k := by
  apply Polynomial.ext
  intro i
  rw [Polynomial.coeff_mul_X_pow', toPoly_coeff, Nat.testBit_shiftLeft]
  by_cases hk : k ≤ i
  · simp [hk, toPoly_coeff]
  · simp [hk]

theorem toPoly_degree_lt (n k : Nat) (h : n < 2 ^ k) :
    (toPoly n).degree < (k : WithBot Nat) := by
  rw [Polynomial.degree_lt_iff_coeff_zero]
  intro m hm
  have hbit : n.testBit m = false :=
    Nat.testBit_lt_two_pow (lt_of_lt_of_le h (Nat.pow_le_pow_right (by norm_num) hm))
  simp [toPoly_coeff, hbit]

theorem toPoly_mul_pow_add (a b k : Nat) (hb : b < 2 ^ k) :
    toPoly (2 ^ k * a + b) = toPoly a * Polynomial.X ^ k + toPoly b := by
  apply Polynomial.ext
  intro i
  rw [Polynomial.coeff_add, Polynomial.coeff_mul_X_pow', toPoly_coeff, toPoly_coeff,
    Nat.testBit_mul_pow_two_add a hb i]
  by_cases hik : i < k
  · have hik2 : ¬ k ≤ i := by omega
    simp [hik, hik2, toPoly_coeff]
  · have hik2 : k ≤ i := by omega
    have hbbit : b.testBit i = false :=
      Nat.testBit_lt_two_pow (lt_of_lt_of_le hb (Nat.pow_le_pow_right (by norm_num) hik2))
    simp [hik, hik2, toPoly_coeff, hbbit]

theorem Gpoly_eq : Gpoly = Polynomial.X ^ 24 + toPoly 0x864CFB := by
  unfold Gpoly CRC24Q_POLY
  have h : (0x1864CFB : Nat) = 2 ^ 24 * 1 + 0x864CFB := by norm_num
  rw [h, toPoly_mul_pow_add 1 0x864CFB 24 (by norm_num), toPoly_one, one_mul]

theorem Gpoly_degree : Gpoly.degree = 24 := by
  rw [Gpoly_eq]
  have h1 : (toPoly 0x864CFB).degree < (Polynomial.X ^ 24 : Polynomial (ZMod 2)).degree := by
    rw [Polynomial.degree_X_pow]
    exact toPoly_degree_lt _ 24 (by norm_num)
  rw [Polynomial.degree_add_eq_left_of_degree_lt h1, Polynomial.degree_X_pow]
  norm_cast

theorem Gpoly_monic : Gpoly.Monic := by
  rw [Gpoly_eq]
  exact Polynomial.monic_X_pow_add (toPoly_degree_lt _ 24 (by norm_num))

/-- In characteristic two every polynomial cancels itself. -/
theorem add_self_polyZ2 (x : Polynomial (ZMod 2)) : x + x = 0 := by
  apply Polynomial.ext
  intro n
  simp [CharTwo.add_self_eq_zero]

theorem and_mask24 (v : Nat) (h : v < 2 ^ 24) : v &&& 0xFFFFFF = v := by
  have h1 : (0xFFFFFF : Nat) = 2 ^ 24 - 1 := by norm_num
  rw [h1, Nat.and_pow_two_sub_one_eq_mod, Nat.mod_eq_of_lt h]

theorem bit23_test (c : Nat) (hc : c < 2 ^ 24) : (c &&& 0x800000 ≠ 0) ↔ 2 ^ 23 ≤ c := by
  have h1 : (0x800000 : Nat) = 2 ^ 23 := by norm_num
  have h23 : (2 : Nat) ^ 23 = 8388608 := by norm_num
  have h24 : (2 : Nat) ^ 24 = 16777216 := by norm_num
  constructor
  · intro h
    by_contra hlt
    push_neg at hlt
    have hb : c.testBit 23 = false := Nat.testBit_lt_two_pow hlt
    rw [h1, Nat.and_two_pow, hb] at h
    simp at h
  · intro h hz
    have hb : c.testBit 23 = true := by
      simp only [Nat.testBit_to_div_mod, decide_eq_true_eq]
      omega
    rw [h1, Nat.and_two_pow, hb] at hz
    simp at hz

theorem two_pow_add_eq_xor (k a : Nat) (h : a < 2 ^ k) : 2 ^ k + a = 2 ^ k ^^^ a := by
  apply Nat.eq_of_testBit_eq
  intro i
  rcases lt_trichotomy i k with hik | hik | hik
  · rw [Nat.testBit_two_pow_add_gt hik, Nat.testBit_xor, Nat.testBit_two_pow]
    have : ¬ (k = i) := by omega
    simp [this]
  · subst hik
    have ha : a.testBit i = false := Nat.testBit_lt_two_pow h
    rw [Nat.testBit_two_pow_add_eq, Nat.testBit_xor, Nat.testBit_two_pow, ha]
    simp
  · have hlt1 : 2 ^ k + a < 2 ^ i := by
      have : 2 ^ (k + 1) ≤ 2 ^ i := Nat.pow_le_pow_right (by norm_num) (by omega)
      have hk1 : (2 : Nat) ^ (k + 1) = 2 ^ k + 2 ^ k := by ring
      omega
    have ha : a.testBit i = false :=
      Nat.testBit_lt_two_pow (by
        have : (2 : Nat) ^ k ≤ 2 ^ i := Nat.pow_le_pow_right (by norm_num) (by omega)
        omega)
    rw [Nat.testBit_lt_two_pow hlt1, Nat.testBit_xor, Nat.testBit_two_pow, ha]
    have : ¬ (k = i) := by omega
    simp [this]

theorem xor_of_highs (x y : Nat) (hx : x < 2 ^ 24) (hy : y < 2 ^ 24) :
    (2 ^ 24 + x) ^^^ (2 ^ 24 + y) = x ^^^ y := by
  rw [two_pow_add_eq_xor 24 x hx, two_pow_add_eq_xor 24 y hy, Nat.xor_assoc]
  rw [show x ^^^ (2 ^ 24 ^^^ y) = 2 ^ 24 ^^^ (x ^^^ y) by
    rw [← Nat.xor_assoc, Nat.xor_comm x _, Nat.xor_assoc]]
  exact Nat.xor_cancel_left _ _

theorem crc24qRound_spec (c : Nat) (hc : c < 2 ^ 24) :
    crc24qRound c < 2 ^ 24 ∧
    toPoly (crc24qRound c) = (toPoly c * Polynomial.X) %ₘ Gpoly := by
  have h24 : (2 : Nat) ^ 24 = 16777216 := by norm_num
  have h23 : (2 : Nat) ^ 23 = 8388608 := by norm_num
  have h32 : (2 : Nat) ^ 32 = 4294967296 := by norm_num
  have h2c : (c <<< 1) % 2 ^ 32 = 2 * c := by
    rw [Nat.shiftLeft_eq]
    have he : c * 2 ^ 1 = 2 * c := by ring
    rw [he]
    apply Nat.mod_eq_of_lt
    omega
  have htp2c : toPoly (2 * c) = toPoly c * Polynomial.X := by
    have he : 2 * c = c <<< 1 := by rw [Nat.shiftLeft_eq]; ring
    rw [he, toPoly_shiftLeft, pow_one]
  by_cases hbit : 2 ^ 23 ≤ c
  · have hcond : c &&& 0x800000 ≠ 0 := (bit23_test c hc).mpr hbit
    have hval : crc24qRound c = (2 * c) ^^^ CRC24Q_POLY := by
      unfold crc24qRound
      rw [if_pos hcond, h2c]
    have hdecomp : (2 * c) ^^^ CRC24Q_POLY = (2 * c - 2 ^ 24) ^^^ 0x864CFB := by
      have hL : 2 * c = 2 ^ 24 + (2 * c - 2 ^ 24) := by omega
      have hR : CRC24Q_POLY = 2 ^ 24 + 0x864CFB := by unfold CRC24Q_POLY; norm_num
      calc (2 * c) ^^^ CRC24Q_POLY
          = (2 ^ 24 + (2 * c - 2 ^ 24)) ^^^ (2 ^ 24 + 0x864CFB) := by rw [← hL, ← hR]
        _ = (2 * c - 2 ^ 24) ^^^ 0x864CFB := xor_of_highs _ _ (by omega) (by norm_num)
    have hlt : crc24qRound c < 2 ^ 24 := by
      rw [hval, hdecomp]
      exact Nat.xor_lt_two_pow (by omega) (by norm_num)
    refine ⟨hlt, ?_⟩
    have hpoly : toPoly (crc24qRound c) = toPoly c * Polynomial.X + Gpoly := by
      rw [hval, toPoly_xor, htp2c]
      unfold Gpoly
      exact rfl
    have hdegv : (toPoly (crc24qRound c)).degree < Gpoly.degree := by
      rw [Gpoly_degree]
      exact toPoly_degree_lt _ 24 hlt
    have hrw : toPoly c * Polynomial.X = toPoly (crc24qRound c) + Gpoly := by
      rw [hpoly, add_assoc, add_self_polyZ2, add_zero]
    rw [hrw, Polynomial.add_modByMonic,
      (Polynomial.modByMonic_eq_self_iff Gpoly_monic).mpr hdegv,
      (Polynomial.modByMonic_eq_zero_iff_dvd Gpoly_monic).mpr dvd_rfl, add_zero]
  · have hcond : ¬ (c &&& 0x800000 ≠ 0) := by
      rw [bit23_test c hc]
      omega
    have hval : crc24qRound c = 2 * c := by
      unfold crc24qRound
      rw [if_neg hcond, h2c]
    have hlt : crc24qRound c < 2 ^ 24 := by rw [hval]; omega
    refine ⟨hlt, ?_⟩
    have hdegv : (toPoly (2 * c)).degree < Gpoly.degree := by
      rw [Gpoly_degree]
      exact toPoly_degree_lt _ 24 (by omega)
    rw [hval, ← htp2c]
    exact ((Polynomial.modByMonic_eq_self_iff Gpoly_monic).mpr hdegv).symm

theorem modByMonic_mul_right_cong (p q : Polynomial (ZMod 2)) :
    ((p %ₘ Gpoly) * q) %ₘ Gpoly = (p * q) %ₘ Gpoly := by
  have hdiv := Polynomial.modByMonic_add_div p Gpoly_monic
  have hrw : p * q = (p %ₘ Gpoly) * q + Gpoly * ((p /ₘ Gpoly) * q) := by
    calc p * q = (p %ₘ Gpoly + Gpoly * (p /ₘ Gpoly)) * q := by rw [hdiv]
      _ = (p %ₘ Gpoly) * q + Gpoly * ((p /ₘ Gpoly) * q) := by ring
  rw [hrw, Polynomial.add_modByMonic,
    (Polynomial.modByMonic_eq_zero_iff_dvd Gpoly_monic).mpr ⟨_, rfl⟩, add_zero]

theorem crc24qRound_iter_spec (k : Nat) :
    ∀ c : Nat, c < 2 ^ 24 →
      crc24qRound^[k] c < 2 ^ 24 ∧
      toPoly (crc24qRound^[k] c) = (toPoly c * Polynomial.X ^ k) %ₘ Gpoly := by
  induction k with
  | zero =>
      intro c hc
      refine ⟨by simpa using hc, ?_⟩
      have hdegv : (toPoly c).degree < Gpoly.degree := by
        rw [Gpoly_degree]
        exact toPoly_degree_lt _ 24 hc
      rw [Function.iterate_zero_apply, pow_zero, mul_one]
      exact ((Polynomial.modByMonic_eq_self_iff Gpoly_monic).mpr hdegv).symm
  | succ k ih =>
      intro c hc
      rw [Function.iterate_succ_apply]
      obtain ⟨h1, h2⟩ := crc24qRound_spec c hc
      obtain ⟨h3, h4⟩ := ih (crc24qRound c) h1
      refine ⟨h3, ?_⟩
      rw [h4, h2, modByMonic_mul_right_cong]
      have he : toPoly c * Polynomial.X * Polynomial.X ^ k
          = toPoly c * Polynomial.X ^ (k + 1) := by ring
      rw [he]

theorem crc24q_spec (c b : Nat) (hc : c < 2 ^ 24) (hb : b < 256) :
    crc24q c b < 2 ^ 24 ∧
    toPoly (crc24q c b)
      = (toPoly c * Polynomial.X ^ 8 + toPoly b * Polynomial.X ^ 24) %ₘ Gpoly := by
  have h24 : (2 : Nat) ^ 24 = 16777216 := by norm_num
  have h32 : (2 : Nat) ^ 32 = 4294967296 := by norm_num
  have hx : (c % 2 ^ 32) ^^^ ((b % 256) <<< 16) = c ^^^ (b <<< 16) := by
    rw [Nat.mod_eq_of_lt (by omega), Nat.mod_eq_of_lt hb]
  have hshift : b <<< 16 < 2 ^ 24 := by
    rw [Nat.shiftLeft_eq]
    have : (2 : Nat) ^ 16 = 65536 := by norm_num
    omega
  have hxlt : c ^^^ (b <<< 16) < 2 ^ 24 := Nat.xor_lt_two_pow hc hshift
  obtain ⟨h1, h2⟩ := crc24qRound_iter_spec 8 _ hxlt
  unfold crc24q
  rw [hx, and_mask24 _ h1]
  refine ⟨h1, ?_⟩
  rw [h2]
  congr 1
  rw [toPoly_xor, toPoly_shiftLeft]
  ring

theorem crcRun_foldl_spec (bs : List Nat) :
    ∀ c m : Nat, c < 2 ^ 24 →
      toPoly c = (toPoly m * Polynomial.X ^ 24) %ₘ Gpoly →
      (∀ b ∈ bs, b < 256) →
      List.foldl crc24q c bs < 2 ^ 24 ∧
      toPoly (List.foldl crc24q c bs)
        = (toPoly (List.foldl (fun a b => a * 256 + b) m bs) * Polynomial.X ^ 24) %ₘ Gpoly := by
  induction bs with
  | nil => intro c m hc hcm _; exact ⟨hc, hcm⟩
  | cons b bs ih =>
      intro c m hc hcm hbs
      have hb : b < 256 := hbs b (by simp)
      obtain ⟨h1, h2⟩ := crc24q_spec c b hc hb
      simp only [List.foldl_cons]
      apply ih (crc24q c b) (m * 256 + b) h1 ?_ (fun x hx => hbs x (by simp [hx]))
      rw [h2, hcm, Polynomial.add_modByMonic, modByMonic_mul_right_cong]
      have hm : m * 256 + b = 2 ^ 8 * m + b := by ring
      rw [hm, toPoly_mul_pow_add m b 8 hb, add_mul, Polynomial.add_modByMonic]
      have he : toPoly m * Polynomial.X ^ 24 * Polynomial.X ^ 8
          = toPoly m * Polynomial.X ^ 8 * Polynomial.X ^ 24 := by ring
      rw [he]

/-- C6: `RtcmParser::crc24q`, iterated over a byte sequence from seed 0,
computes exactly the polynomial-division remainder of the message
polynomial times `x^24` modulo the CRC-24Q generator polynomial
`0x1864CFB` over GF(2). -/
theorem crc24q_is_polynomial_remainder (bs : List Nat) (hbs : ∀ b ∈ bs, b < 256) :
    toPoly (crcRun bs) = (toPoly (msgNat bs) * Polynomial.X ^ 24) %ₘ Gpoly := by
  have h0 : toPoly 0 = (toPoly 0 * Polynomial.X ^ 24) %ₘ Gpoly := by
    rw [toPoly_zero, zero_mul, Polynomial.zero_modByMonic]
  exact (crcRun_foldl_spec bs 0 0 (by norm_num) h0 hbs).2

/-- Witness for C6 at the concrete byte sequence `[0xD3]`. -/
theorem crc24q_is_polynomial_remainder_witness :
    (∀ b ∈ [0xD3], b < 256) ∧
    toPoly (crcRun [0xD3]) = (toPoly (msgNat [0xD3]) * Polynomial.X ^ 24) %ₘ Gpoly :=
  ⟨by decide, crc24q_is_polynomial_remainder [0xD3] (by decide)⟩

/-! ## C1 — exactly one valid result per well-formed frame -/

theorem byteFin_mod (b : Nat) : byteFin (b % 256) = byteFin b := by
  apply Fin.ext
  simp only [byteFin]
  omega

theorem byteFin_small (b : Nat) (hb : b < 256) : (byteFin b).val = b := by
  simp [byteFin, Nat.mod_eq_of_lt hb]

theorem shiftLeft_or_low (a b k : Nat) (hb : b < 2 ^ k) :
    (a <<< k) ||| b = 2 ^ k * a + b := by
  apply Nat.eq_of_testBit_eq
  intro i
  rw [Nat.testBit_or, Nat.testBit_shiftLeft, Nat.testBit_mul_pow_two_add a hb i]
  by_cases hik : i < k
  · have : ¬ (i ≥ k) := by omega
    simp [hik, this]
  · have hik2 : i ≥ k := by omega
    have hbbit : b.testBit i = false :=
      Nat.testBit_lt_two_pow (lt_of_lt_of_le hb (Nat.pow_le_pow_right (by norm_num) hik2))
    simp [hik, hik2, hbbit]

theorem crc_bytes_recompose (V : Nat) (hV : V < 2 ^ 24) :
    ((V >>> 16) <<< 16) ||| (((V >>> 8) &&& 0xFF) <<< 8) ||| (V &&& 0xFF) = V := by
  have h16 : (2 : Nat) ^ 16 = 65536 := by norm_num
  have h8 : (2 : Nat) ^ 8 = 256 := by norm_num
  have h24 : (2 : Nat) ^ 24 = 16777216 := by norm_num
  have ha : V >>> 16 = V / 65536 := by
    rw [Nat.shiftRight_eq_div_pow, h16]
  have hm : (V >>> 8) &&& 0xFF = V / 256 % 256 := by
    rw [Nat.shiftRight_eq_div_pow, show (0xFF : Nat) = 2 ^ 8 - 1 from by norm_num,
      Nat.and_pow_two_sub_one_eq_mod, h8]
  have hl : V &&& 0xFF = V % 256 := by
    rw [show (0xFF : Nat) = 2 ^ 8 - 1 from by norm_num,
      Nat.and_pow_two_sub_one_eq_mod, h8]
  rw [ha, hm, hl]
  have hb1 : (V / 256 % 256) <<< 8 < 2 ^ 16 := by
    rw [Nat.shiftLeft_eq, h8, h16]
    have : V / 256 % 256 < 256 := Nat.mod_lt _ (by norm_num)
    omega
  rw [shiftLeft_or_low _ _ 16 hb1]
  have hmid : 2 ^ 16 * (V / 65536) + ((V / 256 % 256) <<< 8)
      = (2 ^ 8 * (V / 65536) + V / 256 % 256) <<< 8 := by
    rw [Nat.shiftLeft_eq, Nat.shiftLeft_eq]
    ring
  rw [hmid, shiftLeft_or_low _ _ 8 (by omega)]
  have hmod : V / 256 % 256 < 256 := Nat.mod_lt _ (by norm_num)
  rw [h8, h16] at *
  omega

theorem run_append (xs ys : List Nat) (p : RtcmParser) :
    p.run (xs ++ ys)
      = (((p.run xs).1.run ys).1,
         (p.run xs).2.1 ++ ((p.run xs).1.run ys).2.1,
         (p.run xs).2.2 ++ ((p.run xs).1.run ys).2.2) := by
  induction xs generalizing p with
  | nil => simp [RtcmParser.run]
  | cons x xs ih => simp [RtcmParser.run, ih]

theorem feed_sync_skip (p : RtcmParser) (b : Nat) (hp : p.state = .SYNC)
    (hb : b % 256 ≠ 0xD3) :
    p.feed b = (p, RtcmResult.init, []) := by
  rcases p with ⟨st, len, idx, c, cb, pb⟩
  simp only at hp
  subst hp
  simp [RtcmParser.feed, hb]

theorem run_sync_skip (bs : List Nat) (p : RtcmParser) (hp : p.state = .SYNC)
    (hbs : ∀ b ∈ bs, b % 256 ≠ 0xD3) :
    p.run bs = (p, List.replicate bs.length RtcmResult.init, []) := by
  induction bs with
  | nil => simp [RtcmParser.run]
  | cons b bs ih =>
      have h1 := feed_sync_skip p b hp (hbs b (by simp))
      simp [RtcmParser.run, h1, ih (fun x hx => hbs x (by simp [hx])),
        List.replicate_succ]

theorem crc24q_mod (c b : Nat) : crc24q c (b % 256) = crc24q c b := by
  have h : b % 256 % 256 = b % 256 := by omega
  simp [crc24q, h]

/-- The payload-buffer store performed by one `PAYLOAD` step. -/
def pbUpd (p : RtcmParser) (b : Nat) : Fin 12 → Fin 256 :=
  if h : p.index < 12 then Function.update p.payloadBuf ⟨p.index, h⟩ (byteFin b)
  else p.payloadBuf

/-- The store trace of one `PAYLOAD` step. -/
def wsOf (p : RtcmParser) : List BufWrite :=
  if p.index < 12 then [BufWrite.payload p.index] else []

theorem feed_payload (p : RtcmParser) (b : Nat) (hp : p.state = .PAYLOAD) :
    p.feed b = (if p.length ≤ (p.index + 1) % 65536 then
        ({ p with payloadBuf := pbUpd p b, crc := crc24q p.crc b,
                  state := .CRC, index := 0 }, RtcmResult.init, wsOf p)
      else
        ({ p with payloadBuf := pbUpd p b, crc := crc24q p.crc b,
                  index := (p.index + 1) % 65536 }, RtcmResult.init, wsOf p)) := by
  rcases p with ⟨st, len, idx, c, cb, pb⟩
  simp only at hp
  subst hp
  simp only [RtcmParser.feed, pbUpd, wsOf, byteFin_mod, crc24q_mod]

theorem run_payload_phase (rest : List Nat) :
    ∀ (p : RtcmParser) (j : Nat), p.state = .PAYLOAD → p.index = j →
      j + rest.length = p.length → p.length ≤ 1023 → 1 ≤ rest.length →
      ((p.run rest).1.state = .CRC ∧
       (p.run rest).1.index = 0 ∧
       (p.run rest).1.length = p.length ∧
       (p.run rest).1.crc = List.foldl crc24q p.crc rest ∧
       (∀ i : Fin 12, (p.run rest).1.payloadBuf i =
          if j ≤ i.val ∧ i.val < p.length then byteFin (rest.getD (i.val - j) 0)
          else p.payloadBuf i) ∧
       (p.run rest).2.1 = List.replicate rest.length RtcmResult.init) := by
  induction rest with
  | nil =>
      intro p j _ _ _ _ h5
      simp at h5
  | cons b rest ih =>
      intro p j h1 h2 h3 h4 h5
      have hjlt : j + 1 ≤ p.length := by simp at h3; omega
      have hmod : (j + 1) % 65536 = j + 1 := Nat.mod_eq_of_lt (by omega)
      have hfeed := feed_payload p b h1
      rw [h2, hmod] at hfeed
      cases rest with
      | nil =>
          have hlen : p.length ≤ j + 1 := by simp at h3; omega
          rw [if_pos hlen] at hfeed
          simp only [RtcmParser.run, hfeed]
          refine ⟨by simp, by simp, by simp, by simp, ?_, by simp⟩
          intro i
          simp only [pbUpd, h2]
          by_cases hij : i.val = j
          · have hj12 : j < 12 := by omega
            rw [dif_pos hj12]
            have hieq : i = ⟨j, hj12⟩ := Fin.ext hij
            subst hieq
            simp only [Function.update_same]
            have hcond : j ≤ j ∧ j < p.length := ⟨le_refl j, by omega⟩
            simp [hcond]
          · have hcond : ¬ (j ≤ i.val ∧ i.val < p.length) := by
              simp at h3
              intro hc
              omega
            simp only [if_neg hcond]
            by_cases hj12 : j < 12
            · rw [dif_pos hj12]
              have hne : i ≠ ⟨j, hj12⟩ := by
                intro hcontra
                exact hij (by rw [hcontra])
              simp [Function.update_noteq hne]
            · rw [dif_neg hj12]
      | cons b2 rest2 =>
          have hlen : ¬ (p.length ≤ j + 1) := by simp at h3; omega
          rw [if_neg hlen] at hfeed
          have hq1 : (p.feed b).1.state = RtcmStage.PAYLOAD := by rw [hfeed]; exact h1
          have hq2 : (p.feed b).1.index = j + 1 := by rw [hfeed]
          have hq3 : (p.feed b).1.length = p.length := by rw [hfeed]
          have hq4 : (p.feed b).1.crc = crc24q p.crc b := by rw [hfeed]
          have hq5 : (p.feed b).1.payloadBuf = pbUpd p b := by rw [hfeed]
          have hq6 : (p.feed b).2.1 = RtcmResult.init := by rw [hfeed]
          have hih := ih (p.feed b).1 (j + 1) hq1 hq2
            (by rw [hq3]; simp at h3 ⊢; omega) (by rw [hq3]; exact h4) (by simp)
          refine ⟨hih.1, hih.2.1, (hih.2.2.1).trans hq3, ?_, ?_, ?_⟩
          · have hcrc : List.foldl crc24q (p.feed b).1.crc (b2 :: rest2)
                = List.foldl crc24q p.crc (b :: b2 :: rest2) := by
              rw [hq4]
              simp
            exact (hih.2.2.2.1).trans hcrc
          · intro i
            show ((p.feed b).1.run (b2 :: rest2)).1.payloadBuf i = _
            rw [hih.2.2.2.2.1 i, hq3, hq5]
            by_cases hc1 : j + 1 ≤ i.val ∧ i.val < p.length
            · rw [if_pos hc1]
              have hc2 : j ≤ i.val ∧ i.val < p.length := ⟨by omega, hc1.2⟩
              rw [if_pos hc2]
              have hgd : (b2 :: rest2).getD (i.val - (j + 1)) 0
                  = (b :: b2 :: rest2).getD (i.val - j) 0 := by
                have hsub : i.val - j = (i.val - (j + 1)) + 1 := by omega
                rw [hsub]
                simp
              rw [hgd]
            · rw [if_neg hc1]
              by_cases hij : i.val = j
              · have hj12 : j < 12 := by omega
                have hcond : j ≤ i.val ∧ i.val < p.length := ⟨by omega, by omega⟩
                rw [if_pos hcond]
                simp only [pbUpd, h2]
                rw [dif_pos hj12]
                have hieq : i = ⟨j, hj12⟩ := Fin.ext hij
                subst hieq
                simp only [Function.update_same]
                have hsub0 : (⟨j, hj12⟩ : Fin 12).val - j = 0 := by omega
                rw [hsub0]
                simp
              · have hcond : ¬ (j ≤ i.val ∧ i.val < p.length) := by
                  intro hc
                  rcases hc with ⟨hca, hcb⟩
                  exact hc1 ⟨by omega, hcb⟩
                rw [if_neg hcond]
                simp only [pbUpd, h2]
                by_cases hj12 : j < 12
                · rw [dif_pos hj12]
                  have hne : i ≠ ⟨j, hj12⟩ := by
                    intro hcontra
                    exact hij (by rw [hcontra])
                  simp [Function.update_noteq hne]
                · rw [dif_neg hj12]
          · show (p.feed b).2.1 :: ((p.feed b).1.run (b2 :: rest2)).2.1 = _
            rw [hq6, hih.2.2.2.2.2]
            simp [List.replicate_succ]

theorem run_crc_phase (p : RtcmParser) (hp : p.state = .CRC) (hidx : p.index = 0)
    (hV : p.crc < 2 ^ 24) :
    ((p.run (crcBytes3 p.crc)).1.state = .SYNC ∧
     (p.run (crcBytes3 p.crc)).1.length = 0 ∧
     (p.run (crcBytes3 p.crc)).1.index = 0 ∧
     (p.run (crcBytes3 p.crc)).1.crc = 0 ∧
     (p.run (crcBytes3 p.crc)).2.1
       = [RtcmResult.init, RtcmResult.init,
          ⟨true, false, p.extractMessageType, p.length⟩]) := by
  have h24 : (2 : Nat) ^ 24 = 16777216 := by norm_num
  rcases p with ⟨st, len, idx, c, cb, pb⟩
  simp only at hp hidx hV ⊢
  subst hp
  subst hidx
  have hb0 : c >>> 16 < 256 := by
    rw [Nat.shiftRight_eq_div_pow]
    omega
  have hb1 : (c >>> 8) &&& 0xFF < 256 := by
    have := Nat.and_le_right (n := c >>> 8) (m := 0xFF)
    omega
  have hb2 : c &&& 0xFF < 256 := by
    have := Nat.and_le_right (n := c) (m := 0xFF)
    omega
  have h03 : (0 : Nat) < 3 := by norm_num
  have h13 : (1 : Nat) < 3 := by norm_num
  have h23 : (2 : Nat) < 3 := by norm_num
  set cb1 := Function.update cb ⟨0, h03⟩ (byteFin (c >>> 16)) with hcb1
  set cb2 := Function.update cb1 ⟨1, h13⟩ (byteFin ((c >>> 8) &&& 0xFF)) with hcb2
  set cb3 := Function.update cb2 ⟨2, h23⟩ (byteFin (c &&& 0xFF)) with hcb3
  have hf1 : (⟨.CRC, len, 0, c, cb, pb⟩ : RtcmParser).feed (c >>> 16)
      = (⟨.CRC, len, 1, c, cb1, pb⟩, RtcmResult.init, [BufWrite.crcb 0]) := by
    simp only [RtcmParser.feed, byteFin_mod]
    norm_num
    exact hcb1.symm
  have hf2 : (⟨.CRC, len, 1, c, cb1, pb⟩ : RtcmParser).feed ((c >>> 8) &&& 0xFF)
      = (⟨.CRC, len, 2, c, cb2, pb⟩, RtcmResult.init, [BufWrite.crcb 1]) := by
    simp only [RtcmParser.feed, byteFin_mod]
    norm_num
    exact hcb2.symm
  have hv0 : (cb3 ⟨0, h03⟩).val = c >>> 16 := by
    rw [hcb3, hcb2]
    rw [Function.update_noteq (by simp), Function.update_noteq (by simp), hcb1,
      Function.update_same]
    exact byteFin_small _ hb0
  have hv1 : (cb3 ⟨1, h13⟩).val = (c >>> 8) &&& 0xFF := by
    rw [hcb3]
    rw [Function.update_noteq (by simp), hcb2, Function.update_same]
    exact byteFin_small _ hb1
  have hv2 : (cb3 ⟨2, h23⟩).val = c &&& 0xFF := by
    rw [hcb3, Function.update_same]
    exact byteFin_small _ hb2
  have hrecv : ((cb3 0).val <<< 16) ||| ((cb3 1).val <<< 8) ||| (cb3 2).val = c := by
    have e0 : (0 : Fin 3) = ⟨0, h03⟩ := rfl
    have e1 : (1 : Fin 3) = ⟨1, h13⟩ := rfl
    have e2 : (2 : Fin 3) = ⟨2, h23⟩ := rfl
    rw [e0, e1, e2, hv0, hv1, hv2]
    exact crc_bytes_recompose c hV
  have hf3 : (⟨.CRC, len, 2, c, cb2, pb⟩ : RtcmParser).feed (c &&& 0xFF)
      = (⟨.SYNC, 0, 0, 0, cb3, pb⟩,
         ⟨true, false,
          RtcmParser.extractMessageType ⟨.CRC, len, 2, c, cb3, pb⟩, len⟩,
         [BufWrite.crcb 2]) := by
    have hok : (c == ((cb3 0).val <<< 16) ||| ((cb3 1).val <<< 8) ||| (cb3 2).val)
        = true := by
      rw [hrecv]
      simp
    simp only [RtcmParser.feed, byteFin_mod]
    rw [dif_pos h23, ← hcb3]
    have h3le : 3 ≤ (2 + 1) % 65536 := by norm_num
    rw [if_pos h3le]
    simp only [hok]
    simp
  have hrun : (⟨.CRC, len, 0, c, cb, pb⟩ : RtcmParser).run (crcBytes3 c)
      = (⟨.SYNC, 0, 0, 0, cb3, pb⟩,
         [RtcmResult.init, RtcmResult.init,
          ⟨true, false,
           RtcmParser.extractMessageType ⟨.CRC, len, 2, c, cb3, pb⟩, len⟩],
         [BufWrite.crcb 0] ++ ([BufWrite.crcb 1] ++ ([BufWrite.crcb 2] ++ []))) := by
    simp only [crcBytes3, RtcmParser.run, hf1, hf2, hf3]
  rw [hrun]
  refine ⟨rfl, rfl, rfl, rfl, ?_⟩
  have hext : RtcmParser.extractMessageType ⟨.CRC, len, 2, c, cb3, pb⟩
      = RtcmParser.extractMessageType ⟨.CRC, len, 0, c, cb, pb⟩ := by
    simp [RtcmParser.extractMessageType]
  rw [hext]

theorem crc24q_lt (c b : Nat) : crc24q c b < 2 ^ 24 := by
  unfold crc24q
  have h := Nat.and_le_right
    (n := crc24qRound^[8] ((c % 2 ^ 32) ^^^ ((b % 256) <<< 16))) (m := 0xFFFFFF)
  have h24 : (2 : Nat) ^ 24 = 16777216 := by norm_num
  omega

theorem msgTypeOf_getD (payload : List Nat) (h : 2 ≤ payload.length) :
    msgTypeOf payload
      = ((((payload.getD 0 0) % 256) <<< 4) |||
         ((((payload.getD 1 0) % 256) >>> 4) &&& 0x0F)) % 65536 := by
  cases payload with
  | nil => simp at h
  | cons q0 t =>
      cases t with
      | nil => simp at h
      | cons q1 t2 => simp [msgTypeOf]

theorem msgTypeOf_short (payload : List Nat) (h : payload.length < 2) :
    msgTypeOf payload = 0 := by
  cases payload with
  | nil => rfl
  | cons q0 t =>
      cases t with
      | nil => rfl
      | cons q1 t2 => simp at h; omega

theorem run_mkFrame (p : RtcmParser) (hp : p.state = .SYNC) (r : Nat)
    (payload : List Nat) (hL1 : 1 ≤ payload.length) (hL2 : payload.length ≤ 1023) :
    ((p.run (mkFrame r payload)).1.state = .SYNC ∧
     (p.run (mkFrame r payload)).1.length = 0 ∧
     (p.run (mkFrame r payload)).1.index = 0 ∧
     (p.run (mkFrame r payload)).1.crc = 0 ∧
     (p.run (mkFrame r payload)).2.1
       = List.replicate (payload.length + 5) RtcmResult.init
           ++ [⟨true, false, msgTypeOf payload, payload.length⟩]) := by
  rcases p with ⟨st, len0, idx0, c0, cb, pb⟩
  simp only at hp
  subst hp
  set L := payload.length with hLdef
  set l1 := (r % 64) * 4 + (L >>> 8) with hl1
  set l2 := L &&& 0xFF with hl2
  set V := crcRun ([0xD3, l1, l2] ++ payload) with hV
  have hLdiv : L >>> 8 = L / 256 := by
    rw [Nat.shiftRight_eq_div_pow]
  have hLmod : L &&& 0xFF = L % 256 := by
    rw [show (0xFF : Nat) = 2 ^ 8 - 1 from by norm_num, Nat.and_pow_two_sub_one_eq_mod]
  have hu : r % 64 < 64 := Nat.mod_lt _ (by norm_num)
  have hl1lt : l1 < 256 := by
    rw [hl1, hLdiv]
    omega
  have hl2lt : l2 < 256 := by
    rw [hl2, hLmod]
    omega
  have hfD3 : (⟨.SYNC, len0, idx0, c0, cb, pb⟩ : RtcmParser).feed 0xD3
      = (⟨.LEN1, len0, idx0, crc24q 0 0xD3, cb, pb⟩, RtcmResult.init, []) := by
    simp [RtcmParser.feed]
  have hlen1 : ((l1 % 256 &&& 3) <<< 8) % 65536 = (L >>> 8) <<< 8 := by
    rw [show (3 : Nat) = 2 ^ 2 - 1 from by norm_num, Nat.and_pow_two_sub_one_eq_mod,
      Nat.shiftLeft_eq, Nat.shiftLeft_eq, hLdiv, hl1]
    have h4 : (2 : Nat) ^ 2 = 4 := by norm_num
    have h8 : (2 : Nat) ^ 8 = 256 := by norm_num
    rw [h4, h8, hLdiv]
    omega
  have hfl1 : (⟨.LEN1, len0, idx0, crc24q 0 0xD3, cb, pb⟩ : RtcmParser).feed l1
      = (⟨.LEN2, (L >>> 8) <<< 8, idx0, crc24q (crc24q 0 0xD3) l1, cb, pb⟩,
         RtcmResult.init, []) := by
    simp [RtcmParser.feed, crc24q_mod, hlen1]
  have hlen2 : (((L >>> 8) <<< 8) ||| (l2 % 256)) % 65536 = L := by
    have hm : l2 % 256 = L % 256 := by rw [hl2, hLmod]; omega
    rw [hm]
    have hor : ((L >>> 8) <<< 8) ||| (L % 256) = 2 ^ 8 * (L >>> 8) + L % 256 :=
      shiftLeft_or_low _ _ 8 (by omega)
    rw [hor, hLdiv]
    have h8 : (2 : Nat) ^ 8 = 256 := by norm_num
    rw [h8]
    omega
  have hfl2 : (⟨.LEN2, (L >>> 8) <<< 8, idx0, crc24q (crc24q 0 0xD3) l1, cb, pb⟩
        : RtcmParser).feed l2
      = (⟨.PAYLOAD, L, 0, crc24q (crc24q (crc24q 0 0xD3) l1) l2, cb, pb⟩,
         RtcmResult.init, []) := by
    simp [RtcmParser.feed, crc24q_mod, hlen2]
  set p3 := (⟨.PAYLOAD, L, 0, crc24q (crc24q (crc24q 0 0xD3) l1) l2, cb, pb⟩
    : RtcmParser) with hp3
  have hl3 : p3.length = payload.length := by rw [hp3]
  have hpay := run_payload_phase payload p3 0 (by rw [hp3]) (by rw [hp3])
    (by rw [hl3]; omega) (by rw [hl3, ← hLdef]; exact hL2) hL1
  have hcrcV : (p3.run payload).1.crc = V := by
    rw [hpay.2.2.2.1, hV, hp3]
    rfl
  have hVlt : V < 2 ^ 24 := by
    have hstep : ∀ (bs : List Nat) (c : Nat), c < 2 ^ 24 →
        List.foldl crc24q c bs < 2 ^ 24 := by
      intro bs
      induction bs with
      | nil => intro c hc; simpa using hc
      | cons x xs ih => intro c _; simp only [List.foldl_cons]; exact ih _ (crc24q_lt c x)
    rw [hV]
    simp only [crcRun, List.cons_append, List.foldl_cons]
    exact hstep _ _ (crc24q_lt _ _)
  set p4 := (p3.run payload).1 with hp4
  have hcrc := run_crc_phase p4 hpay.1 hpay.2.1 (by rw [hcrcV]; exact hVlt)
  have hlist : crcBytes3 V = crcBytes3 p4.crc := by rw [hcrcV]
  have hext : p4.extractMessageType = msgTypeOf payload := by
    unfold RtcmParser.extractMessageType
    rw [hpay.2.2.1, hl3]
    by_cases h2L : 2 ≤ payload.length
    · rw [if_pos h2L]
      have hb0 := hpay.2.2.2.2.1 (0 : Fin 12)
      have hb1 := hpay.2.2.2.2.1 (1 : Fin 12)
      have hc0 : (0 : Fin 12).val = 0 := rfl
      have hc1 : (1 : Fin 12).val = 1 := rfl
      rw [hc0, hl3] at hb0
      rw [hc1, hl3] at hb1
      rw [if_pos ⟨le_refl 0, by omega⟩] at hb0
      rw [if_pos ⟨by omega, by omega⟩] at hb1
      rw [hb0, hb1, msgTypeOf_getD payload h2L]
      simp [byteFin]
    · rw [if_neg h2L, msgTypeOf_short payload (by omega)]
  have hsplit : mkFrame r payload = 0xD3 :: l1 :: l2 :: (payload ++ crcBytes3 V) := by
    simp [mkFrame, hV, crcRun, hl1, hl2, hLdef]
  rw [hsplit]
  have hrunfull : (⟨.SYNC, len0, idx0, c0, cb, pb⟩ : RtcmParser).run
        (0xD3 :: l1 :: l2 :: (payload ++ crcBytes3 V))
      = ((p3.run (payload ++ crcBytes3 V)).1,
         RtcmResult.init :: RtcmResult.init :: RtcmResult.init ::
           (p3.run (payload ++ crcBytes3 V)).2.1,
         (p3.run (payload ++ crcBytes3 V)).2.2) := by
    simp only [RtcmParser.run, hfD3, hfl1, hfl2, List.nil_append]
  rw [hrunfull]
  rw [run_append payload (crcBytes3 V) p3]
  rw [hlist]
  refine ⟨hcrc.1, hcrc.2.1, hcrc.2.2.1, hcrc.2.2.2.1, ?_⟩
  rw [hcrc.2.2.2.2, hext, hpay.2.2.2.2.2]
  have hlen4 : p4.length = L := by rw [hpay.2.2.1, hl3]
  rw [hlen4]
  have hfive : L + 5 = 3 + (L + 2) := by omega
  rw [hLdef] at hfive
  rw [hfive, List.replicate_add, List.replicate_add]
  simp [hLdef]

theorem filter_replicate_init (n : Nat) :
    (List.replicate n RtcmResult.init).filter (fun rr => rr.valid) = [] := by
  induction n with
  | zero => rfl
  | succ k ih => simp [List.replicate_succ, ih, RtcmResult.init]

/-- C1 (amended): if the bytes before and after the frame contain no `0xD3`
and the frame payload length is between 1 and 1023, then feeding the stream
from the reset state emits exactly one `valid` result, and it carries the
frame's message type and payload length. -/
theorem rtcm_one_valid_result (p0 : RtcmParser) (pre payload post : List Nat) (r : Nat)
    (hpre : ∀ b ∈ pre, b % 256 ≠ 0xD3) (hpost : ∀ b ∈ post, b % 256 ≠ 0xD3)
    (hL1 : 1 ≤ payload.length) (hL2 : payload.length ≤ 1023) :
    ((p0.resetP.run (pre ++ (mkFrame r payload ++ post))).2.1.filter
        (fun rr => rr.valid))
      = [⟨true, false, msgTypeOf payload, payload.length⟩] := by
  have hreset : p0.resetP.state = .SYNC := rfl
  have h1 := run_sync_skip pre p0.resetP hreset hpre
  have h2 := run_mkFrame p0.resetP hreset r payload hL1 hL2
  have h3 := run_sync_skip post (p0.resetP.run (mkFrame r payload)).1 h2.1 hpost
  have hres : (p0.resetP.run (pre ++ (mkFrame r payload ++ post))).2.1
      = List.replicate pre.length RtcmResult.init
        ++ ((List.replicate (payload.length + 5) RtcmResult.init
             ++ [⟨true, false, msgTypeOf payload, payload.length⟩])
            ++ List.replicate post.length RtcmResult.init) := by
    simp only [run_append, h1, h3, h2.2.2.2.2]
  rw [hres]
  simp [List.filter_append, filter_replicate_init]

/-- Witness for the amended C1 at a concrete stream: one junk byte, a
two-byte frame of message type 1000, one trailing junk byte. -/
theorem rtcm_one_valid_result_witness :
    (∀ b ∈ [0x00], b % 256 ≠ 0xD3) ∧ (∀ b ∈ [0xFF], b % 256 ≠ 0xD3) ∧
    1 ≤ ([0x3E, 0x80] : List Nat).length ∧ ([0x3E, 0x80] : List Nat).length ≤ 1023 ∧
    ((RtcmParser.mk0.resetP.run ([0x00] ++ (mkFrame 5 [0x3E, 0x80] ++ [0xFF]))).2.1.filter
        (fun rr => rr.valid))
      = [⟨true, false, msgTypeOf [0x3E, 0x80], ([0x3E, 0x80] : List Nat).length⟩] :=
  ⟨by decide, by decide, by decide, by decide,
   rtcm_one_valid_result RtcmParser.mk0 [0x00] [0x3E, 0x80] [0xFF] 5
     (by decide) (by decide) (by decide) (by decide)⟩

/-- C1 counterexample to the claim as stated: (a) a well-formed frame with
payload length 0 produces no `valid` result at all (the parser consumes the
first CRC byte as a payload byte); (b) a prefix containing a stray `0xD3`
swallows a following well-formed frame, so no `valid` result is emitted for
it; (c) when the same well-formed frame appears twice, two `valid` results
carry its message type and length, not exactly one. -/
theorem rtcm_one_valid_result_counterexample :
    (crcRun [0xD3, 0x00, 0x00] = 0x47EA4B ∧
     ((RtcmParser.mk0.run [0xD3, 0x00, 0x00, 0x47, 0xEA, 0x4B]).2.1.filter
        (fun rr => rr.valid)) = []) ∧
    (((RtcmParser.mk0.run ([0xD3, 0x00, 0x02] ++ mkFrame 0 [0x3E, 0x80])).2.1.filter
        (fun rr => rr.valid)) = []) ∧
    (((RtcmParser.mk0.run (mkFrame 0 [0x3E, 0x80] ++ mkFrame 0 [0x3E, 0x80])).2.1.filter
        (fun rr => rr.valid)).length = 2) :=
  ⟨⟨by decide, by decide⟩, by decide, by decide⟩

/-! ## NTRIP client — embedding of `NtripClient.cpp`

The work loop (`taskLoop`), the control surface and the transport response
classifier are embedded as pure functions over a `Client` record; the loop
and the concurrent control operations form a labelled step relation.
Wall-clock reads (`millis()`) are supplied as oracle inputs to each step;
within one read burst the model uses a single timestamp.  `framesSince` is
a specification-only ghost counter: the exact number of valid frames
counted since the most recent transition into `STREAMING` (the C counter
`validFrames` is `uint8_t` and wraps, the ghost does not). -/

/-- Connection states (`enum class NtripState`). -/
inductive NtripState
  | DISCONNECTED
  | CONNECTING
  | STREAMING
  | LOCKED_OUT
deriving DecidableEq, Repr

/-- Error codes (`enum class NtripError`). -/
inductive NtripError
  | NONE
  | INVALID_CONFIG
  | TCP_CONNECT_FAILED
  | HTTP_AUTH_FAILED
  | HTTP_MOUNT_NOT_FOUND
  | HTTP_TIMEOUT
  | HTTP_UNKNOWN_ERROR
  | STREAM_VALIDATION_FAILED
  | ZOMBIE_STREAM_DETECTED
  | MAX_RETRIES_EXCEEDED
deriving DecidableEq, Repr

/-- Stream phase, private to the work loop (`enum class StreamPhase`). -/
inductive StreamPhase
  | VALIDATION
  | STREAMING
deriving DecidableEq, Repr

/-- Configuration structure (`NtripClientConfig`). -/
structure NtripClientConfig where
  host : String
  port : Nat
  mount : String
  user : String
  pass : String
  ggaSentence : String
  maxTries : Nat
  retryDelayMs : Nat
  healthTimeoutMs : Nat
  passiveSampleMs : Nat
  requiredValidFrames : Nat
  bufferSize : Nat
  connectTimeoutMs : Nat
deriving DecidableEq, Repr

/-- Statistics record (`NtripStats`), including the `protocolVersion` field
the session code maintains. -/
structure NtripStats where
  totalFrames : Nat
  crcErrors : Nat
  bytesReceived : Nat
  reconnects : Nat
  totalUptime : Nat
  lastMessageType : Nat
  lastFrameTime : Nat
  connectionStart : Nat
  lastError : NtripError
  lastErrorMessage : String
  protocolVersion : Nat
deriving DecidableEq, Repr

/-- Default-constructed `NtripStats`. -/
def NtripStats.init : NtripStats := ⟨0, 0, 0, 0, 0, 0, 0, 0, .NONE, "", 0⟩

/-- Embedding of `NtripClient::validateConfig`: the boolean verdict and the
`errorOut` message (empty when valid; the C++ code leaves `errorOut`
untouched on success). -/
def validateConfig (cfg : NtripClientConfig) : Bool × String :=
  if cfg.host.length = 0 then (false, "host is empty")
  else if cfg.mount.length = 0 then (false, "mount is empty")
  else if cfg.port = 0 then (false, "port is zero")
  else if cfg.bufferSize = 0 then (false, "bufferSize is zero")
  else if cfg.connectTimeoutMs = 0 then (false, "connectTimeoutMs is zero")
  else if cfg.maxTries = 0 then (false, "maxTries is zero")
  else if cfg.healthTimeoutMs = 0 then (false, "healthTimeoutMs is zero")
  else (true, "")

/-- The session-engine state: the `NtripClient` members written by the work
loop together with the loop-local variables of `taskLoop`. -/
structure Client where
  config : NtripClientConfig
  state : NtripState
  healthy : Bool
  running : Bool
  failures : Nat
  lastAttempt : Nat
  lastHealth : Nat
  connected : Bool
  stats : NtripStats
  phase : StreamPhase
  validFrames : Nat
  framesSince : Nat
  lastSampleTime : Nat
  localBytes : Nat
  localFrames : Nat
  localCrcErrors : Nat
  localLastMsgType : Nat
  localLastFrameTime : Nat
  lastStatsFlush : Nat
  parser : RtcmParser

/-- State right after a successful `begin(cfg, sink)`. -/
def initClient (cfg : NtripClientConfig) : Client :=
  { config := cfg, state := .DISCONNECTED, healthy := false, running := true,
    failures := 0, lastAttempt := 0, lastHealth := 0, connected := false,
    stats := NtripStats.init, phase := .VALIDATION, validFrames := 0,
    framesSince := 0, lastSampleTime := 0, localBytes := 0, localFrames := 0,
    localCrcErrors := 0, localLastMsgType := 0, localLastFrameTime := 0,
    lastStatsFlush := 0, parser := RtcmParser.mk0 }

/-- Embedding of `NtripClient::begin`: validate, then install the config and
reset the session scalars; `none` models a `false` return. -/
def beginClient (cfg : NtripClientConfig) (c : Client) : Option Client :=
  if (validateConfig cfg).1 then
    some { c with
      config := cfg, failures := 0, healthy := false,
      state := .DISCONNECTED, running := false, stats := NtripStats.init }
  else none

/-- Embedding of `NtripClient::setError`. -/
def setErrorFn (c : Client) (e : NtripError) (m : String) : Client :=
  { c with stats := { c.stats with lastError := e, lastErrorMessage := m } }

/-- Embedding of `NtripClient::disconnect`. -/
def disconnectFn (c : Client) : Client :=
  { c with
    connected := false, healthy := false, state := .DISCONNECTED,
    stats := { c.stats with protocolVersion := 0 } }

/-- Embedding of `NtripClient::stop`. -/
def stopFn (c : Client) : Client :=
  let c1 := disconnectFn c
  { c1 with failures := c1.config.maxTries, state := .LOCKED_OUT }

/-- Embedding of `NtripClient::reset`. -/
def resetFn (c : Client) : Client :=
  { c with
    failures := 0, state := .DISCONNECTED,
    stats := { c.stats with lastError := .NONE, lastErrorMessage := "" } }

/-- Embedding of `NtripClient::reconnect`. -/
def reconnectFn (c : Client) : Client :=
  { (disconnectFn c) with lastAttempt := 0 }

/-- Embedding of the socket-hygiene block at the top of each loop pass. -/
def hygieneFn (c : Client) : Client :=
  if c.state ≠ .STREAMING ∧ c.state ≠ .CONNECTING ∧ c.connected = true then
    { c with connected := false, healthy := false }
  else c

/-- Embedding of the `connectCaster` success path of the `CONNECTING`
branch: reset failures, parser and phase, clear `healthy`, enter
`STREAMING`, zero the local accumulators, and commit the connection event
to the stats registry.  `ver` is the accepted protocol revision. -/
def connectOkFn (c : Client) (t ver : Nat) : Client :=
  { c with
    lastAttempt := t, failures := 0, parser := c.parser.resetP,
    validFrames := 0, framesSince := 0, phase := .VALIDATION,
    lastHealth := t, healthy := false, state := .STREAMING, connected := true,
    localBytes := 0, localFrames := 0, localCrcErrors := 0,
    localLastMsgType := 0, localLastFrameTime := 0, lastStatsFlush := t,
    stats := { c.stats with
      reconnects := c.stats.reconnects + 1,
      connectionStart := t, lastError := .NONE, lastErrorMessage := "",
      protocolVersion := ver } }

/-- Embedding of the `connectCaster` failure path. -/
def connectFailFn (c : Client) (t : Nat) (e : NtripError) (m : String) : Client :=
  { (setErrorFn c e m) with
    lastAttempt := t,
    failures := (c.failures + 1) % 256, state := .DISCONNECTED }

/-- Embedding of the strict-validation `for` loop (lines 526-551): feed
bytes until `validFrames` reaches `requiredValidFrames`, then `break`.
Returns the updated client and the list of bytes actually fed.  The C
counters are `uint8_t` (`validFrames`) and `uint32_t` (locals); the ghost
`framesSince` counts without wrap. -/
def valLoop (t : Nat) : Client → List Nat → Client × List Nat
  | c, [] => (c, [])
  | c, b :: bs =>
      let fr := c.parser.feed b
      let c0 := { c with parser := fr.1 }
      if fr.2.1.valid then
        let c1 := { c0 with
          validFrames := (c0.validFrames + 1) % 256,
          framesSince := c0.framesSince + 1, lastHealth := t,
          localFrames := (c0.localFrames + 1) % 2 ^ 32,
          localLastMsgType := fr.2.1.messageType,
          localLastFrameTime := t }
        if c1.config.requiredValidFrames ≤ c1.validFrames then
          ({ c1 with healthy := true, phase := .STREAMING, lastSampleTime := t }, [b])
        else
          let r2 := valLoop t c1 bs
          (r2.1, b :: r2.2)
      else if fr.2.1.crcError then
        let r2 := valLoop t { c0 with
          localCrcErrors := (c0.localCrcErrors + 1) % 2 ^ 32 } bs
        (r2.1, b :: r2.2)
      else
        let r2 := valLoop t c0 bs
        (r2.1, b :: r2.2)

/-- Embedding of the passive-sampling branch (lines 553-572). -/
def passiveScan (t : Nat) (c : Client) (data : List Nat) : Client :=
  if c.config.passiveSampleMs < t - c.lastSampleTime then
    if (data.take (min data.length 128)).any (fun b => b == 0xD3) then
      { c with
        lastHealth := t, healthy := true, lastSampleTime := t,
        localLastFrameTime := t }
    else c
  else c

/-- Embedding of one `STREAMING` read burst (lines 517-583): account the
bytes, forward the whole buffer to the sink, run the phase logic, then the
zombie check.  Returns (new client, bytes written to the sink, bytes fed
to the parser). -/
def readStep (c : Client) (data : List Nat) (t : Nat) : Client × List Nat × List Nat :=
  let c1 := { c with localBytes := (c.localBytes + data.length) % 2 ^ 32 }
  let ph := if c1.phase = .VALIDATION then valLoop t c1 data
            else (passiveScan t c1 data, [])
  let c3 := if c.config.healthTimeoutMs < t - ph.1.lastHealth then
      disconnectFn (setErrorFn ph.1 .ZOMBIE_STREAM_DETECTED "No valid RTCM")
    else ph.1
  (c3, data, ph.2)

/-- Embedding of the periodic stats flush (lines 593-612). -/
def flushFn (c : Client) (t : Nat) : Client :=
  { c with
    stats := { c.stats with
      bytesReceived := (c.stats.bytesReceived + c.localBytes) % 2 ^ 32,
      totalFrames := (c.stats.totalFrames + c.localFrames) % 2 ^ 32,
      crcErrors := (c.stats.crcErrors + c.localCrcErrors) % 2 ^ 32,
      lastMessageType := if c.localLastMsgType ≠ 0 then c.localLastMsgType
        else c.stats.lastMessageType,
      lastFrameTime := if c.localLastFrameTime ≠ 0 then c.localLastFrameTime
        else c.stats.lastFrameTime,
      totalUptime := if 0 < c.stats.connectionStart
        then t - c.stats.connectionStart else c.stats.totalUptime },
    localBytes := 0, localFrames := 0, localCrcErrors := 0,
    localLastMsgType := 0, localLastFrameTime := 0, lastStatsFlush := t }

/-- Embedding of the cleanup flush at task exit (lines 620-625): only the
three counters are folded in. -/
def finalFlushFn (c : Client) : Client :=
  { c with
    stats := { c.stats with
      bytesReceived := (c.stats.bytesReceived + c.localBytes) % 2 ^ 32,
      totalFrames := (c.stats.totalFrames + c.localFrames) % 2 ^ 32,
      crcErrors := (c.stats.crcErrors + c.localCrcErrors) % 2 ^ 32 } }

/-- Step labels: the work-loop branches and the control operations. -/
inductive Ev
  | hygiene
  | idle
  | discLockout
  | discConnect
  | connectOk (t ver : Nat)
  | connectFail (t : Nat) (e : NtripError) (m : String)
  | sockLost
  | readData (data : List Nat) (t : Nat)
  | readNone (t : Nat)
  | statsFlush (t : Nat)
  | stopCall
  | resetCall
  | reconnectCall
  | finalFlush
deriving DecidableEq, Repr

/-- The labelled step relation of the session engine: one work-loop branch
or one control operation at a time. -/
inductive Step : Client → Ev → Client → Prop
  | hygiene (c : Client) : Step c .hygiene (hygieneFn c)
  | idle (c : Client) : Step c .idle c
  | discLockout (c : Client) (h1 : c.state = .DISCONNECTED)
      (h2 : c.config.maxTries ≤ c.failures) :
      Step c .discLockout
        { (setErrorFn c .MAX_RETRIES_EXCEEDED "Failed") with state := .LOCKED_OUT }
  | discConnect (c : Client) (h1 : c.state = .DISCONNECTED)
      (h2 : c.failures < c.config.maxTries) :
      Step c .discConnect { c with state := .CONNECTING }
  | connectOk (c : Client) (t ver : Nat) (h1 : c.state = .CONNECTING) :
      Step c (.connectOk t ver) (connectOkFn c t ver)
  | connectFail (c : Client) (t : Nat) (e : NtripError) (m : String)
      (h1 : c.state = .CONNECTING) :
      Step c (.connectFail t e m) (connectFailFn c t e m)
  | sockLost (c : Client) (h1 : c.state = .STREAMING) (h2 : c.connected = false) :
      Step c .sockLost (disconnectFn (setErrorFn c .TCP_CONNECT_FAILED "Socket closed"))
  | readData (c : Client) (data : List Nat) (t : Nat) (h1 : c.state = .STREAMING)
      (h2 : c.connected = true) (h3 : data ≠ []) :
      Step c (.readData data t) (readStep c data t).1
  | readNone (c : Client) (t : Nat) (h1 : c.state = .STREAMING)
      (h2 : c.connected = true) :
      Step c (.readNone t)
        (if c.config.healthTimeoutMs < t - c.lastHealth then
           disconnectFn (setErrorFn c .ZOMBIE_STREAM_DETECTED "No valid RTCM")
         else c)
  | statsFlush (c : Client) (t : Nat) (h : 250 ≤ t - c.lastStatsFlush) :
      Step c (.statsFlush t) (flushFn c t)
  | stopCall (c : Client) : Step c .stopCall (stopFn c)
  | resetCall (c : Client) : Step c .resetCall (resetFn c)
  | reconnectCall (c : Client) : Step c .reconnectCall (reconnectFn c)
  | finalFlush (c : Client) (h : c.running = false) : Step c .finalFlush (finalFlushFn c)

/-- Reachability under the step relation. -/
inductive Reaches : Client → Client → Prop
  | refl (c : Client) : Reaches c c
  | tail (a b c' : Client) (e : Ev) (h1 : Reaches a b) (h2 : Step b e c') : Reaches a c'

/-- A concrete valid configuration used by witnesses. -/
def cfgSmoke : NtripClientConfig :=
  { host := "caster", port := 2101, mount := "MNT", user := "u", pass := "p",
    ggaSentence := "", maxTries := 3, retryDelayMs := 0, healthTimeoutMs := 100,
    passiveSampleMs := 200, requiredValidFrames := 1, bufferSize := 64,
    connectTimeoutMs := 100 }

/-! ## C8 — reset() clears failures, lastError and returns to Disconnected -/

/-- C8: for every prior session state, `reset()` zeroes the failure counter,
clears the last error (kind and message) and sets the state to
`DISCONNECTED`. -/
theorem reset_clears_state (c : Client) :
    (resetFn c).failures = 0 ∧ (resetFn c).state = .DISCONNECTED ∧
    (resetFn c).stats.lastError = .NONE ∧ (resetFn c).stats.lastErrorMessage = "" :=
  ⟨rfl, rfl, rfl, rfl⟩

/-! ## C9 — stats flush points -/

/-- C9 (amended): the periodic flush folds all five local accumulators into
the registry and resets them; the task-exit flush folds only `bytes`,
`frames` and `crcErrors`; connection teardown (`disconnect`) folds
nothing — local accumulators and the shared counters are unchanged by it. -/
theorem stats_flush_points (c : Client) (t : Nat) :
    ((flushFn c t).stats.bytesReceived = (c.stats.bytesReceived + c.localBytes) % 2 ^ 32 ∧
     (flushFn c t).stats.totalFrames = (c.stats.totalFrames + c.localFrames) % 2 ^ 32 ∧
     (flushFn c t).stats.crcErrors = (c.stats.crcErrors + c.localCrcErrors) % 2 ^ 32 ∧
     (flushFn c t).stats.lastMessageType
       = (if c.localLastMsgType ≠ 0 then c.localLastMsgType
          else c.stats.lastMessageType) ∧
     (flushFn c t).stats.lastFrameTime
       = (if c.localLastFrameTime ≠ 0 then c.localLastFrameTime
          else c.stats.lastFrameTime) ∧
     (flushFn c t).localBytes = 0 ∧ (flushFn c t).localFrames = 0 ∧
     (flushFn c t).localCrcErrors = 0 ∧ (flushFn c t).lastStatsFlush = t) ∧
    ((finalFlushFn c).stats.bytesReceived
       = (c.stats.bytesReceived + c.localBytes) % 2 ^ 32 ∧
     (finalFlushFn c).stats.totalFrames
       = (c.stats.totalFrames + c.localFrames) % 2 ^ 32 ∧
     (finalFlushFn c).stats.crcErrors
       = (c.stats.crcErrors + c.localCrcErrors) % 2 ^ 32) ∧
    ((disconnectFn c).stats.bytesReceived = c.stats.bytesReceived ∧
     (disconnectFn c).stats.totalFrames = c.stats.totalFrames ∧
     (disconnectFn c).stats.crcErrors = c.stats.crcErrors ∧
     (disconnectFn c).localBytes = c.localBytes ∧
     (disconnectFn c).localFrames = c.localFrames ∧
     (disconnectFn c).localCrcErrors = c.localCrcErrors) :=
  ⟨⟨rfl, rfl, rfl, rfl, rfl, rfl, rfl, rfl, rfl⟩, ⟨rfl, rfl, rfl⟩,
   ⟨rfl, rfl, rfl, rfl, rfl, rfl⟩⟩

/-- Teardown trace for the C9 counterexample: connect, receive one byte,
zombie-disconnect 200 ms later (before the 250 ms flush window), reconnect. -/
def s0Ex : Client := connectOkFn { initClient cfgSmoke with state := .CONNECTING } 0 2

/-- State after the read burst that accumulates one byte and tears the
connection down. -/
def s1Ex : Client := (readStep s0Ex [0x00] 200).1

/-- Re-entering `CONNECTING` right after the teardown. -/
def s2Ex : Client := { s1Ex with state := .CONNECTING }

/-- State after the immediate reconnect: the local accumulators are zeroed
without ever having been flushed. -/
def s3Ex : Client := connectOkFn s2Ex 210 2

/-- C9 counterexample: a realisable step sequence in which one received
byte is accounted in the local accumulator, the connection is torn down,
and a reconnect zeroes the accumulator before any flush — the count never
reaches the shared registry, contradicting the claim that teardown flushes
the local accumulators. -/
theorem stats_teardown_loss_counterexample :
    Step (initClient cfgSmoke) .discConnect
      { initClient cfgSmoke with state := .CONNECTING } ∧
    Step { initClient cfgSmoke with state := .CONNECTING } (.connectOk 0 2) s0Ex ∧
    Step s0Ex (.readData [0x00] 200) s1Ex ∧
    Step s1Ex .discConnect s2Ex ∧
    Step s2Ex (.connectOk 210 2) s3Ex ∧
    s1Ex.state = .DISCONNECTED ∧ s1Ex.localBytes = 1 ∧
    s1Ex.stats.bytesReceived = 0 ∧
    s3Ex.localBytes = 0 ∧ s3Ex.stats.bytesReceived = 0 :=
  ⟨Step.discConnect _ rfl (by decide),
   Step.connectOk _ 0 2 rfl,
   Step.readData _ [0x00] 200 (by decide) (by decide) (by decide),
   Step.discConnect _ (by decide) (by decide),
   Step.connectOk _ 210 2 rfl,
   by decide, by decide, by decide, by decide, by decide⟩

/-! ## C4 — configuration validation -/

theorem validateConfig_false_iff (cfg : NtripClientConfig) :
    (validateConfig cfg).1 = false ↔
      (cfg.host.length = 0 ∨ cfg.mount.length = 0 ∨ cfg.port = 0 ∨
       cfg.bufferSize = 0 ∨ cfg.connectTimeoutMs = 0 ∨ cfg.maxTries = 0 ∨
       cfg.healthTimeoutMs = 0) := by
  unfold validateConfig
  split_ifs <;> simp_all

/-- C4 (amended): `begin` fails exactly when host or mount is empty or one
of port, bufferSize, connectTimeoutMs, maxTries, healthTimeoutMs is zero;
`requiredValidFrames` is NOT among the checked fields. -/
theorem begin_invalid_config_iff (cfg : NtripClientConfig) (c : Client) :
    beginClient cfg c = none ↔
      (cfg.host.length = 0 ∨ cfg.mount.length = 0 ∨ cfg.port = 0 ∨
       cfg.bufferSize = 0 ∨ cfg.connectTimeoutMs = 0 ∨ cfg.maxTries = 0 ∨
       cfg.healthTimeoutMs = 0) := by
  rw [← validateConfig_false_iff]
  unfold beginClient
  cases h : (validateConfig cfg).1 <;> simp [h]

/-- A configuration with `requiredValidFrames = 0` and all checked fields
valid. -/
def cfgBad : NtripClientConfig :=
  { host := "h", port := 2101, mount := "m", user := "", pass := "",
    ggaSentence := "", maxTries := 3, retryDelayMs := 0, healthTimeoutMs := 1000,
    passiveSampleMs := 200, requiredValidFrames := 0, bufferSize := 64,
    connectTimeoutMs := 100 }

/-- C4 counterexample: a configuration with `requiredValidFrames = 0`
passes `validateConfig`, and `begin` accepts it — contradicting the claim
that such a configuration is rejected before a session may start. -/
theorem begin_requiredValidFrames_counterexample :
    cfgBad.requiredValidFrames = 0 ∧ (validateConfig cfgBad).1 = true ∧
    (beginClient cfgBad (initClient cfgBad)).isSome = true :=
  ⟨rfl, by decide, by decide⟩

/-! ## C5 — response-line classification -/

/-- `String.indexOf(pat) >= 0` in the Arduino API: `pat` occurs as a
substring. -/
def containsSub (s pat : String) : Bool := decide (pat.toList <:+: s.toList)

/-- Embedding of the response classification in
`NtripClient::connectCasterWithVersion` (lines 727-758): `none` is the
success path, `some (kind, message)` the error path. -/
def classifyResponse (line host mount : String) : Option (NtripError × String) :=
  if line.startsWith "ICY 200" || line.startsWith "HTTP/1.1 200"
      || line.startsWith "HTTP/1.0 200" then none
  else if containsSub line "401" then
    some (.HTTP_AUTH_FAILED, "Invalid credentials for " ++ host)
  else if containsSub line "404" then
    some (.HTTP_MOUNT_NOT_FOUND, "Mount not found: " ++ mount)
  else
    some (.HTTP_UNKNOWN_ERROR, "HTTP error: " ++ line)

/-- C5: the first non-empty response line is classified as success exactly
when it starts with one of the three accepted status prefixes; otherwise as
auth failure when it contains `401`; otherwise as mount-not-found when it
contains `404`; otherwise as unknown error carrying the raw line. -/
theorem response_line_classification (line host mount : String) (hne : line ≠ "") :
    (classifyResponse line host mount = none ↔
      (line.startsWith "ICY 200" = true ∨ line.startsWith "HTTP/1.1 200" = true ∨
       line.startsWith "HTTP/1.0 200" = true)) ∧
    (classifyResponse line host mount
        = some (.HTTP_AUTH_FAILED, "Invalid credentials for " ++ host) ↔
      (¬(line.startsWith "ICY 200" = true ∨ line.startsWith "HTTP/1.1 200" = true ∨
         line.startsWith "HTTP/1.0 200" = true) ∧ containsSub line "401" = true)) ∧
    (classifyResponse line host mount
        = some (.HTTP_MOUNT_NOT_FOUND, "Mount not found: " ++ mount) ↔
      (¬(line.startsWith "ICY 200" = true ∨ line.startsWith "HTTP/1.1 200" = true ∨
         line.startsWith "HTTP/1.0 200" = true) ∧ containsSub line "401" = false ∧
       containsSub line "404" = true)) ∧
    (classifyResponse line host mount
        = some (.HTTP_UNKNOWN_ERROR, "HTTP error: " ++ line) ↔
      (¬(line.startsWith "ICY 200" = true ∨ line.startsWith "HTTP/1.1 200" = true ∨
         line.startsWith "HTTP/1.0 200" = true) ∧ containsSub line "401" = false ∧
       containsSub line "404" = false)) := by
  have hd : (line.startsWith "ICY 200" || line.startsWith "HTTP/1.1 200"
        || line.startsWith "HTTP/1.0 200") = true ↔
      (line.startsWith "ICY 200" = true ∨ line.startsWith "HTTP/1.1 200" = true ∨
       line.startsWith "HTTP/1.0 200" = true) := by
    simp [Bool.or_eq_true, or_assoc]
  unfold classifyResponse
  by_cases h1 : (line.startsWith "ICY 200" || line.startsWith "HTTP/1.1 200"
      || line.startsWith "HTTP/1.0 200") = true
  · rw [if_pos h1]
    have hdisj := hd.mp h1
    exact ⟨iff_of_true rfl hdisj,
      iff_of_false (by simp) (fun hc => hc.1 hdisj),
      iff_of_false (by simp) (fun hc => hc.1 hdisj),
      iff_of_false (by simp) (fun hc => hc.1 hdisj)⟩
  · rw [if_neg h1]
    have hndisj : ¬(line.startsWith "ICY 200" = true ∨
        line.startsWith "HTTP/1.1 200" = true ∨
        line.startsWith "HTTP/1.0 200" = true) := fun hdj => h1 (hd.mpr hdj)
    by_cases h2 : containsSub line "401" = true
    · rw [if_pos h2]
      exact ⟨iff_of_false (by simp) hndisj,
        iff_of_true rfl ⟨hndisj, h2⟩,
        iff_of_false (by simp) (fun hc => by simp [hc.2.1] at h2),
        iff_of_false (by simp) (fun hc => by simp [hc.2.1] at h2)⟩
    · rw [if_neg h2]
      have h2f : containsSub line "401" = false := by
        revert h2
        cases containsSub line "401" <;> simp
      by_cases h3 : containsSub line "404" = true
      · rw [if_pos h3]
        exact ⟨iff_of_false (by simp) hndisj,
          iff_of_false (by simp) (fun hc => by simp [hc.2] at h2f),
          iff_of_true rfl ⟨hndisj, h2f, h3⟩,
          iff_of_false (by simp) (fun hc => by simp [hc.2.2] at h3)⟩
      · rw [if_neg h3]
        have h3f : containsSub line "404" = false := by
          revert h3
          cases containsSub line "404" <;> simp
        exact ⟨iff_of_false (by simp) hndisj,
          iff_of_false (by simp) (fun hc => by simp [hc.2] at h2f),
          iff_of_false (by simp) (fun hc => by simp [hc.2.2] at h3f),
          iff_of_true rfl ⟨hndisj, h2f, h3f⟩⟩

/-- Witness for C5 at the concrete success line `ICY 200 OK`. -/
theorem response_line_classification_witness :
    ("ICY 200 OK" : String) ≠ "" ∧
    (classifyResponse "ICY 200 OK" "caster" "MNT" = none ↔
      (("ICY 200 OK" : String).startsWith "ICY 200" = true ∨
       ("ICY 200 OK" : String).startsWith "HTTP/1.1 200" = true ∨
       ("ICY 200 OK" : String).startsWith "HTTP/1.0 200" = true)) :=
  ⟨by decide, (response_line_classification "ICY 200 OK" "caster" "MNT" (by decide)).1⟩

/-! ## Work-loop lemmas for the session invariants -/

theorem valLoop_pres (t : Nat) (bs : List Nat) : ∀ c : Client,
    ((valLoop t c bs).1.state = c.state ∧
     (valLoop t c bs).1.config = c.config ∧
     (valLoop t c bs).1.connected = c.connected ∧
     (valLoop t c bs).1.stats = c.stats ∧
     (valLoop t c bs).1.running = c.running) := by
  induction bs with
  | nil => intro c; exact ⟨rfl, rfl, rfl, rfl, rfl⟩
  | cons b bs ih =>
      intro c
      simp only [valLoop]
      split
      · split
        · exact ⟨rfl, rfl, rfl, rfl, rfl⟩
        · exact ih _
      · split
        · exact ih _
        · exact ih _

theorem valLoop_counts (t : Nat) (bs : List Nat) : ∀ c : Client,
    c.validFrames ≤ c.framesSince →
    ((valLoop t c bs).1.validFrames ≤ (valLoop t c bs).1.framesSince ∧
     c.framesSince ≤ (valLoop t c bs).1.framesSince ∧
     ((valLoop t c bs).1.healthy = true → c.healthy = true ∨
        c.config.requiredValidFrames ≤ (valLoop t c bs).1.framesSince) ∧
     ((valLoop t c bs).1.phase = .STREAMING → c.phase = .STREAMING ∨
        c.config.requiredValidFrames ≤ (valLoop t c bs).1.framesSince)) := by
  induction bs with
  | nil =>
      intro c h
      exact ⟨h, le_refl _, fun hh => Or.inl hh, fun hp => Or.inl hp⟩
  | cons b bs ih =>
      intro c h
      simp only [valLoop]
      split
      · split
        · rename_i hvalid hreq
          have hreq2 : c.config.requiredValidFrames ≤ (c.validFrames + 1) % 256 := hreq
          have hmle := Nat.mod_le (c.validFrames + 1) 256
          refine ⟨?_, ?_, ?_, ?_⟩
          · show (c.validFrames + 1) % 256 ≤ c.framesSince + 1
            omega
          · show c.framesSince ≤ c.framesSince + 1
            omega
          · intro _
            right
            show c.config.requiredValidFrames ≤ c.framesSince + 1
            omega
          · intro _
            right
            show c.config.requiredValidFrames ≤ c.framesSince + 1
            omega
      
        · rename_i hvalid hreq
          have hmle := Nat.mod_le (c.validFrames + 1) 256
          have hih := ih
            { c with
              parser := (c.parser.feed b).1,
              validFrames := (c.validFrames + 1) % 256,
              framesSince := c.framesSince + 1, lastHealth := t,
              localFrames := (c.localFrames + 1) % 2 ^ 32,
              localLastMsgType := (c.parser.feed b).2.1.messageType,
              localLastFrameTime := t }
            (by show (c.validFrames + 1) % 256 ≤ c.framesSince + 1
                omega)
          exact ⟨hih.1, le_trans (Nat.le_succ _) hih.2.1, hih.2.2.1, hih.2.2.2⟩
      · split
        · exact ih _ h
        · exact ih _ h

theorem passiveScan_pres (t : Nat) (c : Client) (data : List Nat) :
    ((passiveScan t c data).state = c.state ∧
     (passiveScan t c data).config = c.config ∧
     (passiveScan t c data).connected = c.connected ∧
     (passiveScan t c data).stats = c.stats ∧
     (passiveScan t c data).running = c.running ∧
     (passiveScan t c data).validFrames = c.validFrames ∧
     (passiveScan t c data).framesSince = c.framesSince ∧
     (passiveScan t c data).phase = c.phase) := by
  unfold passiveScan
  split_ifs <;> exact ⟨rfl, rfl, rfl, rfl, rfl, rfl, rfl, rfl⟩

/-- The session invariant behind C3: the wrapped `uint8_t` counter never
exceeds the ghost frame count, and while streaming, both `healthy` and the
steady phase certify that at least `requiredValidFrames` valid frames have
been counted since the most recent transition into `STREAMING`. -/
def SessInv (c : Client) : Prop :=
  c.validFrames ≤ c.framesSince ∧
  (c.state = .STREAMING → c.healthy = true →
     c.config.requiredValidFrames ≤ c.framesSince) ∧
  (c.state = .STREAMING → c.phase = .STREAMING →
     c.config.requiredValidFrames ≤ c.framesSince)

theorem inv_disconnect (c : Client) (h1 : c.validFrames ≤ c.framesSince) :
    SessInv (disconnectFn c) := by
  refine ⟨h1, ?_, ?_⟩ <;> intro hst
  · simp [disconnectFn] at hst
  · simp [disconnectFn] at hst

theorem readStep_inv (c : Client) (data : List Nat) (t : Nat)
    (hst : c.state = .STREAMING) (h : SessInv c) : SessInv (readStep c data t).1 := by
  obtain ⟨h1, h2, h3⟩ := h
  by_cases hph : c.phase = .VALIDATION
  · have hpres := valLoop_pres t data
      { c with localBytes := (c.localBytes + data.length) % 2 ^ 32 }
    have hcnt := valLoop_counts t data
      { c with localBytes := (c.localBytes + data.length) % 2 ^ 32 } h1
    simp only [readStep]
    rw [if_pos hph]
    split
    · exact inv_disconnect _ hcnt.1
    · refine ⟨hcnt.1, ?_, ?_⟩
      · intro hstP hhP
        rcases hcnt.2.2.1 hhP with hold | hnew
        · have hold2 : c.healthy = true := hold
          have hc := h2 hst hold2
          rw [hpres.2.1]
          exact le_trans hc hcnt.2.1
        · rw [hpres.2.1]
          exact hnew
      · intro hstP hphP
        rcases hcnt.2.2.2 hphP with hold | hnew
        · have hold2 : c.phase = .STREAMING := hold
          rw [hph] at hold2
          exact absurd hold2 (by simp)
        · rw [hpres.2.1]
          exact hnew
  · have hphS : c.phase = .STREAMING := by
      cases hcp : c.phase
      · exact absurd hcp hph
      · rfl
    have hreq : c.config.requiredValidFrames ≤ c.framesSince := h3 hst hphS
    have hps := passiveScan_pres t
      { c with localBytes := (c.localBytes + data.length) % 2 ^ 32 } data
    simp only [readStep]
    rw [if_neg hph]
    split
    · apply inv_disconnect
      show (passiveScan t _ data).validFrames ≤ (passiveScan t _ data).framesSince
      rw [hps.2.2.2.2.2.1, hps.2.2.2.2.2.2.1]
      exact h1
    · refine ⟨?_, ?_, ?_⟩
      · rw [hps.2.2.2.2.2.1, hps.2.2.2.2.2.2.1]
        exact h1
      · intro _ _
        rw [hps.2.1, hps.2.2.2.2.2.2.1]
        exact hreq
      · intro _ _
        rw [hps.2.1, hps.2.2.2.2.2.2.1]
        exact hreq

theorem readStep_state (c : Client) (data : List Nat) (t : Nat) :
    (readStep c data t).1.state = c.state ∨
    (readStep c data t).1.state = .DISCONNECTED := by
  simp only [readStep]
  by_cases hph :
      ({ c with localBytes := (c.localBytes + data.length) % 2 ^ 32 } : Client).phase
        = .VALIDATION
  · rw [if_pos hph]
    split
    · right
      rfl
    · left
      exact (valLoop_pres t data _).1
  · rw [if_neg hph]
    split
    · right
      rfl
    · left
      exact (passiveScan_pres t _ data).1

theorem step_inv (c c2 : Client) (e : Ev) (hs : Step c e c2) (h : SessInv c) :
    SessInv c2 := by
  obtain ⟨h1, h2, h3⟩ := h
  cases hs with
  | hygiene =>
      unfold hygieneFn
      split
      · rename_i hcond
        refine ⟨h1, ?_, ?_⟩ <;> intro hstX
        · exact absurd hstX hcond.1
        · exact absurd hstX hcond.1
      · exact ⟨h1, h2, h3⟩
  | idle => exact ⟨h1, h2, h3⟩
  | discLockout hc1 hc2 =>
      refine ⟨h1, ?_, ?_⟩ <;> intro hstX <;> simp [setErrorFn] at hstX
  | discConnect hc1 hc2 =>
      refine ⟨h1, ?_, ?_⟩ <;> intro hstX <;> simp at hstX
  | connectOk t ver hc1 =>
      refine ⟨le_refl 0, ?_, ?_⟩
      · intro _ hh
        exact absurd hh (by simp [connectOkFn])
      · intro _ hp
        exact absurd hp (by simp [connectOkFn])
  | connectFail t er m hc1 =>
      refine ⟨h1, ?_, ?_⟩ <;> intro hstX <;>
        simp [connectFailFn, setErrorFn] at hstX
  | sockLost hc1 hc2 => exact inv_disconnect _ h1
  | readData data t hc1 hc2 hc3 => exact readStep_inv c data t hc1 ⟨h1, h2, h3⟩
  | readNone t hc1 hc2 =>
      split
      · exact inv_disconnect _ h1
      · exact ⟨h1, h2, h3⟩
  | statsFlush t hc =>
      exact ⟨h1, fun a b => h2 a b, fun a b => h3 a b⟩
  | stopCall =>
      refine ⟨h1, ?_, ?_⟩ <;> intro hstX <;>
        simp [stopFn, disconnectFn] at hstX
  | resetCall =>
      refine ⟨h1, ?_, ?_⟩ <;> intro hstX <;> simp [resetFn] at hstX
  | reconnectCall =>
      refine ⟨h1, ?_, ?_⟩ <;> intro hstX <;>
        simp [reconnectFn, disconnectFn] at hstX
  | finalFlush hc =>
      exact ⟨h1, fun a b => h2 a b, fun a b => h3 a b⟩

theorem reaches_inv (a c : Client) (h0 : SessInv a) (h : Reaches a c) : SessInv c := by
  induction h with
  | refl => exact h0
  | tail b c' e hr hstep ih => exact step_inv b c' e hstep ih

/-! ## C7 — LockedOut is reached only via max-retries or stop() -/

/-- C7: a step produces the `LOCKED_OUT` state from a non-`LOCKED_OUT` state
only through the work loop observing `failures ≥ maxTries` while
`DISCONNECTED`, or through an explicit `stop()` call. -/
theorem lockout_only_via (c c2 : Client) (e : Ev) (hs : Step c e c2)
    (h1 : c.state ≠ .LOCKED_OUT) (h2 : c2.state = .LOCKED_OUT) :
    (e = .discLockout ∧ c.state = .DISCONNECTED ∧ c.config.maxTries ≤ c.failures) ∨
    e = .stopCall := by
  cases hs with
  | hygiene =>
      exfalso
      apply h1
      unfold hygieneFn at h2
      revert h2
      split <;> intro h2 <;> exact h2
  | idle => exact absurd h2 h1
  | discLockout hc1 hc2 => exact Or.inl ⟨rfl, hc1, hc2⟩
  | discConnect hc1 hc2 => simp at h2
  | connectOk t ver hc1 => simp [connectOkFn] at h2
  | connectFail t er m hc1 => simp [connectFailFn, setErrorFn] at h2
  | sockLost hc1 hc2 => simp [disconnectFn, setErrorFn] at h2
  | readData data t hc1 hc2 hc3 =>
      exfalso
      rcases readStep_state c data t with hx | hx <;> rw [hx] at h2
      · exact h1 h2
      · simp at h2
  | readNone t hc1 hc2 =>
      exfalso
      revert h2
      split <;> intro h2
      · simp [disconnectFn, setErrorFn] at h2
      · exact h1 h2
  | statsFlush t hc => exact absurd h2 h1
  | stopCall => exact Or.inr rfl
  | resetCall => simp [resetFn] at h2
  | reconnectCall => simp [reconnectFn, disconnectFn] at h2
  | finalFlush hc => exact absurd h2 h1

/-- Witness for C7: a client with `failures = maxTries` in `DISCONNECTED`
takes the lockout transition. -/
theorem lockout_only_via_witness :
    (Step { initClient cfgSmoke with failures := 3 } .discLockout
      { (setErrorFn { initClient cfgSmoke with failures := 3 }
          .MAX_RETRIES_EXCEEDED "Failed") with state := .LOCKED_OUT } ∧
     ({ initClient cfgSmoke with failures := 3 } : Client).state ≠ .LOCKED_OUT ∧
     ({ (setErrorFn { initClient cfgSmoke with failures := 3 }
          .MAX_RETRIES_EXCEEDED "Failed") with state := .LOCKED_OUT } : Client).state
       = .LOCKED_OUT) ∧
    ((Ev.discLockout = .discLockout ∧
      ({ initClient cfgSmoke with failures := 3 } : Client).state = .DISCONNECTED ∧
      ({ initClient cfgSmoke with failures := 3 } : Client).config.maxTries
        ≤ ({ initClient cfgSmoke with failures := 3 } : Client).failures) ∨
     Ev.discLockout = .stopCall) :=
  have hstep : Step { initClient cfgSmoke with failures := 3 } .discLockout
      { (setErrorFn { initClient cfgSmoke with failures := 3 }
          .MAX_RETRIES_EXCEEDED "Failed") with state := .LOCKED_OUT } :=
    Step.discLockout _ rfl (by decide)
  ⟨⟨hstep, by decide, rfl⟩,
   lockout_only_via _ _ _ hstep (by decide) rfl⟩

/-! ## C3 — streaming + healthy requires the validation frame count -/

/-- C3: in every state the work loop reaches from a fresh client, if the
session is `STREAMING` and `healthy` is set then at least
`requiredValidFrames` valid frames have been counted since the most recent
transition into `STREAMING`; moreover every transition into `STREAMING`
(`connectOkFn`) clears `healthy` and the since-transition frame count. -/
theorem streaming_healthy_requires_frames (cfg : NtripClientConfig) (c : Client)
    (hr : Reaches (initClient cfg) c) :
    (c.state = .STREAMING → c.healthy = true →
       c.config.requiredValidFrames ≤ c.framesSince) ∧
    (∀ (b : Client) (t ver : Nat),
       (connectOkFn b t ver).healthy = false ∧ (connectOkFn b t ver).framesSince = 0) := by
  have h0 : SessInv (initClient cfg) := by
    refine ⟨le_refl 0, ?_, ?_⟩ <;> intro h <;> simp [initClient] at h
  exact ⟨(reaches_inv _ _ h0 hr).2.1, fun _ _ _ => ⟨rfl, rfl⟩⟩

/-- A client one successful connect after start. -/
def sW1 : Client := connectOkFn { initClient cfgSmoke with state := .CONNECTING } 0 2

/-- The same client after one read burst carrying a full RTCM frame. -/
def sW2 : Client := (readStep sW1 (mkFrame 0 [0x3E, 0x80]) 10).1

/-- Witness for C3: a concrete reachable streaming state obtained by
connecting and feeding one valid frame. -/
theorem streaming_healthy_requires_frames_witness :
    Reaches (initClient cfgSmoke) sW2 ∧
    ((sW2.state = .STREAMING → sW2.healthy = true →
        sW2.config.requiredValidFrames ≤ sW2.framesSince) ∧
     (∀ (b : Client) (t ver : Nat),
        (connectOkFn b t ver).healthy = false ∧ (connectOkFn b t ver).framesSince = 0)) :=
  have h1 : Step (initClient cfgSmoke) .discConnect
      { initClient cfgSmoke with state := .CONNECTING } :=
    Step.discConnect _ rfl (by decide)
  have h2 : Step { initClient cfgSmoke with state := .CONNECTING } (.connectOk 0 2) sW1 :=
    Step.connectOk _ 0 2 rfl
  have h3 : Step sW1 (.readData (mkFrame 0 [0x3E, 0x80]) 10) sW2 :=
    Step.readData _ _ _ rfl rfl (by decide)
  have hr : Reaches (initClient cfgSmoke) sW2 :=
    Reaches.tail _ _ _ _
      (Reaches.tail _ _ _ _
        (Reaches.tail _ _ _ _ (Reaches.refl _) h1) h2) h3
  ⟨hr, streaming_healthy_requires_frames cfgSmoke sW2 hr⟩

/-! ## C2 — forwarded vs parsed bytes during validation -/

theorem valLoop_fed_init (t : Nat) (bs : List Nat) : ∀ c : Client,
    ∃ rest, (valLoop t c bs).2 ++ rest = bs := by
  induction bs with
  | nil =>
      intro c
      exact ⟨[], rfl⟩
  | cons b bs ih =>
      intro c
      simp only [valLoop]
      split
      · split
        · exact ⟨bs, rfl⟩
        · obtain ⟨rest, hrest⟩ := ih
            { c with
              parser := (c.parser.feed b).1
              validFrames := (c.validFrames + 1) % 256
              framesSince := c.framesSince + 1
              lastHealth := t
              localFrames := (c.localFrames + 1) % 2 ^ 32
              localLastMsgType := (c.parser.feed b).2.1.messageType
              localLastFrameTime := t }
          exact ⟨rest, congrArg (List.cons b) hrest⟩
      · split
        · obtain ⟨rest, hrest⟩ := ih
            { c with
              parser := (c.parser.feed b).1
              localCrcErrors := (c.localCrcErrors + 1) % 2 ^ 32 }
          exact ⟨rest, congrArg (List.cons b) hrest⟩
        · obtain ⟨rest, hrest⟩ := ih { c with parser := (c.parser.feed b).1 }
          exact ⟨rest, congrArg (List.cons b) hrest⟩

/-- C2 (amended): every read cycle in the `VALIDATION` phase writes the whole
buffer to the downstream sink, and the bytes fed to the parser form an
initial segment of that buffer, so every parsed byte was also forwarded; the
converse fails — after the required-frames `break` the remaining forwarded
bytes are not parsed, so the forwarded and parsed byte sets need not be
equal. -/
theorem validation_forward_parse (c : Client) (data : List Nat) (t : Nat)
    (hph : c.phase = .VALIDATION) :
    (readStep c data t).2.1 = data ∧
    (∃ rest, (readStep c data t).2.2 ++ rest = data) ∧
    (∀ b, b ∈ (readStep c data t).2.2 → b ∈ (readStep c data t).2.1) := by
  simp only [readStep]
  rw [if_pos hph]
  refine ⟨trivial, valLoop_fed_init t data _, ?_⟩
  intro b hb
  obtain ⟨rest, hrest⟩ := valLoop_fed_init t data
    { c with localBytes := (c.localBytes + data.length) % 2 ^ 32 }
  have hmem : b ∈ (valLoop t
      { c with localBytes := (c.localBytes + data.length) % 2 ^ 32 } data).2 ++ rest :=
    List.mem_append_left rest hb
  rw [hrest] at hmem
  exact hmem

/-- A fresh client put in the streaming state with its phase still
`VALIDATION`. -/
def cV : Client := { initClient cfgSmoke with state := .STREAMING, connected := true }

/-- One read burst: a full valid frame followed by a stray byte. -/
def dataV : List Nat := mkFrame 0 [0x3E, 0x80] ++ [0xEE]

/-- Witness for C2: the forwarded buffer is the input, the fed bytes are an
initial segment, and each fed byte is forwarded. -/
theorem validation_forward_parse_witness :
    cV.phase = .VALIDATION ∧
    ((readStep cV dataV 10).2.1 = dataV ∧
     (∃ rest, (readStep cV dataV 10).2.2 ++ rest = dataV) ∧
     (∀ b, b ∈ (readStep cV dataV 10).2.2 → b ∈ (readStep cV dataV 10).2.1)) :=
  ⟨rfl, validation_forward_parse cV dataV 10 rfl⟩

/-- Counterexample to the frozen C2 wording: with `requiredValidFrames = 1`
the validation loop breaks after the first valid frame, so the stray byte
`0xEE` is written to the sink but never fed to the parser — the two byte
sets differ. -/
theorem validation_forward_parse_counterexample :
    cV.phase = .VALIDATION ∧
    (0xEE ∈ (readStep cV dataV 10).2.1) ∧ ¬(0xEE ∈ (readStep cV dataV 10).2.2) := by
  decide
